import Mathlib

/-!
Verification of the validation pipeline of `ImportApp.py`.

The source program validates tabular spreadsheet data against a per-sheet
configuration: a column-presence check, a type-coercion pass with per-cell
error tracking, a missing-value check, and a row-level checksum check
(`validate_data`, ImportApp.py lines 64-138).  This file gives a shallow
embedding of that pipeline and proves or refutes the specified properties.

Modelling conventions:
* Cell values are the inductive `Value`: a string, a rational number
  (standing for a Python float; no claim depends on IEEE rounding), a date
  (standing for a pandas Timestamp), or the null marker (NaN/NaT/None).
* A pandas DataFrame is a column-ordered association list from column name
  to the list of the column cells; the positional row index is the row id.
* `pd.to_datetime(..., errors="coerce")` and `pd.to_numeric(..., errors="coerce")`
  are embedded by total coercion functions whose string parsers accept the
  ISO date format `YYYY-MM-DD` resp. optionally signed decimal literals;
  unparseable cells become the null marker, exactly as `errors="coerce"`
  never raises.
* Exceptions that escape `validate_data` (the unguarded `df[col]` lookups
  of checks 3 and 4, and `TypeError` from summing non-numeric cells) are
  embedded as `Except.error` with a message naming the Python exception.
-/

set_option allowUnsafeReducibility true
attribute [semireducible] Rat.add Rat.mul Rat.div Rat.sub Rat.neg Rat.inv
attribute [semireducible] Rat.normalize Rat.ofScientific Rat.floor

/-- A dynamic cell value of the in-memory table. -/
inductive Value where
  | vStr (s : String)
  | vFloat (q : ℚ)
  | vDate (d : ℤ)
  | vNull
deriving DecidableEq, Repr

/-- Nullness test, as `Series.isnull`: only the null marker is null. -/
def Value.isNull : Value → Bool
  | .vNull => true
  | _ => false

/-- Recognises a float cell. -/
def Value.isFloat : Value → Bool
  | .vFloat _ => true
  | _ => false

/-- The numeric content of a cell, with 0 for everything that is not a
float; used to express the skipna sum of pandas. -/
def floatPart : Value → ℚ
  | .vFloat q => q
  | _ => 0

/-- Split a character list at every occurrence of a separator. -/
def splitOnChar (sep : Char) : List Char → List (List Char)
  | [] => [[]]
  | c :: rest =>
    let r := splitOnChar sep rest
    if c = sep then [] :: r
    else
      match r with
      | [] => [[c]]
      | g :: gs => (c :: g) :: gs

/-- Value of a non-empty all-digit character list. -/
def digitsVal (l : List Char) : Option ℕ :=
  if ¬ (l = []) ∧ l.all Char.isDigit then
    some (l.foldl (fun a c => a * 10 + (c.toNat - 48)) 0)
  else none

/-- Embedded string-to-float parsing of `pd.to_numeric`: an optionally
signed decimal literal. -/
def parseFloatString (s : String) : Option ℚ :=
  let sgn : ℚ :=
    match s.data with
    | c :: _ => if c = '-' then -1 else 1
    | [] => 1
  let body : List Char :=
    match s.data with
    | c :: r => if c = '-' ∨ c = '+' then r else c :: r
    | [] => []
  match splitOnChar '.' body with
  | [a] => (digitsVal a).map (fun n => sgn * (n : ℚ))
  | [a, b] =>
    match digitsVal a, digitsVal b with
    | some n, some m => some (sgn * ((n : ℚ) + (m : ℚ) / ((10 : ℚ) ^ b.length)))
    | _, _ => none
  | _ => none

/-- Embedded string-to-date parsing of `pd.to_datetime`, restricted to the
ISO format `YYYY-MM-DD`; the date is encoded as the integer `yyyymmdd`. -/
def parseDateString (s : String) : Option ℤ :=
  match splitOnChar '-' s.data with
  | [y, m, d] =>
    match digitsVal y, digitsVal m, digitsVal d with
    | some yy, some mm, some dd =>
      if 1 ≤ mm ∧ mm ≤ 12 ∧ 1 ≤ dd ∧ dd ≤ 31 then
        some ((yy : ℤ) * 10000 + (mm : ℤ) * 100 + (dd : ℤ))
      else none
    | _, _, _ => none
  | _ => none

/-- `pd.to_datetime(cell, errors="coerce")` (ImportApp.py line 86): strings
parse or become null, dates stay, floats are reinterpreted as timestamps,
null stays null.  Never raises. -/
def coerceDatetime : Value → Value
  | .vStr s =>
    match parseDateString s with
    | some d => .vDate d
    | none => .vNull
  | .vFloat q => .vDate ⌊q⌋
  | .vDate d => .vDate d
  | .vNull => .vNull

/-- `pd.to_numeric(cell, errors="coerce")` (ImportApp.py line 93): strings
parse or become null, floats stay, dates are reinterpreted numerically,
null stays null.  Never raises. -/
def coerceFloat : Value → Value
  | .vStr s =>
    match parseFloatString s with
    | some q => .vFloat q
    | none => .vNull
  | .vFloat q => .vFloat q
  | .vDate d => .vFloat (d : ℚ)
  | .vNull => .vNull

/-- Textual representation of a cell, as Python `str`; the null marker
renders as the literal string "nan". -/
def pyStr : Value → String
  | .vStr s => s
  | .vFloat q => toString q
  | .vDate d => toString d
  | .vNull => "nan"

/-- `Series.astype(str)` on one cell (ImportApp.py line 100): always a
non-null string. -/
def coerceStr (v : Value) : Value := .vStr (pyStr v)

/-- The coercion applied for a declared type tag (the if/elif chain of
ImportApp.py lines 85-100; unknown tags coerce nothing). -/
def coerceTag (tag : String) (v : Value) : Value :=
  if tag = "datetime" then coerceDatetime v
  else if tag = "float" then coerceFloat v
  else if tag = "str" then coerceStr v
  else v

/-- A pandas DataFrame: ordered columns, each a name with its cells; the
positional index is the row identifier. -/
structure DataFrame where
  cols : List (String × List Value)
deriving DecidableEq, Repr

/-- `df.columns`. -/
def DataFrame.names (df : DataFrame) : List String := df.cols.map (fun p => p.1)

/-- `df[c]` as a partial lookup (pandas raises `KeyError` when absent). -/
def DataFrame.getCol (df : DataFrame) (c : String) : Option (List Value) :=
  (df.cols.find? (fun p => p.1 = c)).map (fun p => p.2)

/-- `c in df.columns`. -/
def DataFrame.hasCol (df : DataFrame) (c : String) : Bool := (df.getCol c).isSome

/-- `df[c] = series`: overwrite in place when the column exists, else
append it as the last column. -/
def DataFrame.setCol (df : DataFrame) (c : String) (vs : List Value) : DataFrame :=
  if df.hasCol c then ⟨df.cols.map (fun p => if p.1 = c then (c, vs) else p)⟩
  else ⟨df.cols ++ [(c, vs)]⟩

/-- `df.drop(c, axis=1)`. -/
def DataFrame.dropCol (df : DataFrame) (c : String) : DataFrame :=
  ⟨df.cols.filter (fun p => ¬ (p.1 = c))⟩

/-- Number of rows (length of the first column; 0 for a column-free frame). -/
def DataFrame.nrows (df : DataFrame) : ℕ :=
  match df.cols with
  | [] => 0
  | p :: _ => p.2.length

/-- The cell at row `i` of column `c` (null when out of range). -/
def DataFrame.cell (df : DataFrame) (c : String) (i : ℕ) : Value :=
  ((df.getCol c).getD []).getD i Value.vNull

/-- Well-formed frame: distinct column names and rectangular shape. -/
def DataFrame.WF (df : DataFrame) : Prop :=
  df.names.Nodup ∧ ∀ p ∈ df.cols, p.2.length = df.nrows

instance (df : DataFrame) : Decidable df.WF :=
  inferInstanceAs (Decidable (_ ∧ _))

/-- One sheet config of the `DATASETS` registry (ImportApp.py lines 12-49). -/
structure Config where
  sheet_name : String
  table_name : String
  columns : List (String × String)
  required_cols : List String
  numeric_cols : List String
deriving DecidableEq, Repr

/-- `df[df[col].isnull()].index.tolist()`: the positions of the null cells
of a column. -/
def nullIndices (vs : List Value) : List ℕ :=
  (List.range vs.length).filter (fun i => (vs.getD i Value.vNull).isNull)

/-- `set(config["required_cols"]) - set(df.columns)` (ImportApp.py line 72),
with the iteration order of the Python set modelled canonically as the
first-occurrence order of `required_cols`. -/
def missingCols (df : DataFrame) (config : Config) : List String :=
  (config.required_cols.filter (fun c => ¬ df.hasCol c)).dedup

/-- Check 1, required columns (ImportApp.py lines 71-78). -/
def check1 (df : DataFrame) (config : Config) : Bool × String :=
  if (missingCols df config).isEmpty then
    (true, "All required columns present in sheet '" ++ config.sheet_name ++ "'")
  else
    (false, "Missing column(s) from sheet '" ++ config.sheet_name ++ "': " ++
      String.intercalate ", " (missingCols df config))

/-- Python `repr` of a list of row indices. -/
def reprIdxList (l : List ℕ) : String :=
  "[" ++ String.intercalate ", " (l.map toString) ++ "]"

/-- Python `repr` of a dict from column name to row-index list, as it is
interpolated into the check messages. -/
def reprDict (d : List (String × List ℕ)) : String :=
  "\x7b" ++ String.intercalate ", "
      (d.map (fun p => "'" ++ p.1 ++ "': " ++ reprIdxList p.2)) ++ "\x7d"

/-- Check 2, data types and conversion (ImportApp.py lines 81-102): walk the
`columns` mapping in order; for a column present in the table coerce it to
its declared tag, recording for datetime and float tags the positions that
are null after coercion as `type_errors[col]` and as error locations.
Returns the mutated frame, `type_errors`, and the appended locations. -/
def check2 : DataFrame → List (String × String) →
    DataFrame × List (String × List ℕ) × List (ℕ × String)
  | df, [] => (df, [], [])
  | df, (col, tag) :: rest =>
    match df.getCol col with
    | none => check2 df rest
    | some vs =>
      if tag = "datetime" then
        let vs2 := vs.map coerceDatetime
        let inv := nullIndices vs2
        let r := check2 (df.setCol col vs2) rest
        (r.1, (if inv.isEmpty then [] else [(col, inv)]) ++ r.2.1,
          inv.map (fun i => (i, col)) ++ r.2.2)
      else if tag = "float" then
        let vs2 := vs.map coerceFloat
        let inv := nullIndices vs2
        let r := check2 (df.setCol col vs2) rest
        (r.1, (if inv.isEmpty then [] else [(col, inv)]) ++ r.2.1,
          inv.map (fun i => (i, col)) ++ r.2.2)
      else if tag = "str" then
        check2 (df.setCol col (vs.map coerceStr)) rest
      else
        check2 df rest

/-- Check 3, missing values in required columns (ImportApp.py lines 108-115):
`df[col]` raises `KeyError` for an absent required column; otherwise the
null positions of the column become `missing_vals[col]` and error
locations. -/
def check3 : DataFrame → List String →
    Except String (List (String × List ℕ) × List (ℕ × String))
  | _, [] => .ok ([], [])
  | df, col :: rest =>
    match df.getCol col with
    | none => .error ("KeyError: " ++ col)
    | some vs =>
      let inv := nullIndices vs
      match check3 df rest with
      | .error e => .error e
      | .ok (mv, locs) =>
        if inv.isEmpty then .ok (mv, locs)
        else .ok ((col, inv) :: mv.filter (fun p => ¬ (p.1 = col)),
          inv.map (fun i => (i, col)) ++ locs)

/-- `df[numeric_cols]`: the selected columns, raising `KeyError` when one
is absent. -/
def getCols : DataFrame → List String → Except String (List (List Value))
  | _, [] => .ok []
  | df, col :: rest =>
    match df.getCol col with
    | none => .error ("KeyError: " ++ col)
    | some vs =>
      match getCols df rest with
      | .error e => .error e
      | .ok vss => .ok (vs :: vss)

/-- One row of `DataFrame.sum(axis=1)` with the default `skipna=True`:
null cells are skipped, float cells add up, and a string or date cell
makes the row sum (or the later comparison with 0) raise `TypeError`. -/
def rowSumE : List Value → Except String ℚ
  | [] => .ok 0
  | v :: r =>
    match v with
    | .vFloat q =>
      match rowSumE r with
      | .error e => .error e
      | .ok a => .ok (q + a)
    | .vNull => rowSumE r
    | _ => .error "TypeError: unsupported operand type(s)"

/-- All per-row sums of the selected columns at the given row positions. -/
def sumRows (cvs : List (List Value)) : List ℕ → Except String (List ℚ)
  | [] => .ok []
  | i :: rest =>
    match rowSumE (cvs.map (fun vs => vs.getD i Value.vNull)) with
    | .error e => .error e
    | .ok q =>
      match sumRows cvs rest with
      | .error e => .error e
      | .ok qs => .ok (q :: qs)

/-- Check 4, the checksum check (ImportApp.py lines 121-133): only when
`numeric_cols` is non-empty; writes the per-row sums into a temporary
`checksum` column, flags the rows whose sum is at most 0, records every
numeric column of each flagged row, reports the count of flagged rows, and
drops the temporary column again. -/
def check4 (df : DataFrame) (numeric : List String) :
    Except String (DataFrame × Option (Bool × String) × List (ℕ × String)) :=
  if numeric.isEmpty then .ok (df, none, [])
  else
    match getCols df numeric with
    | .error e => .error e
    | .ok cvs =>
      match sumRows cvs (List.range df.nrows) with
      | .error e => .error e
      | .ok sums =>
        let invalid := (List.range df.nrows).filter (fun i => sums.getD i 0 ≤ 0)
        let df2 := (df.setCol "checksum" (sums.map Value.vFloat)).dropCol "checksum"
        let c4 := if invalid.isEmpty then (true, "All checksums valid")
          else (false, "Invalid checksums in " ++ toString invalid.length ++ " rows")
        .ok (df2, some c4, invalid.flatMap (fun i => numeric.map (fun c => (i, c))))

/-- The result quadruple of `validate_data`. -/
structure ValidationResult where
  df : DataFrame
  check_results : List (String × (Bool × String))
  errors : List String
  error_locations : List (ℕ × String)
deriving DecidableEq, Repr

deriving instance DecidableEq for Except

/-- The Data Types Check entry (ImportApp.py lines 103-106). -/
def dataTypesEntry (te : List (String × List ℕ)) : Bool × String :=
  if te.isEmpty then (true, "All data types valid")
  else (false, "Invalid data types in: " ++ reprDict te)

/-- The Missing Values Check entry (ImportApp.py lines 116-119). -/
def missingValuesEntry (mv : List (String × List ℕ)) : Bool × String :=
  if mv.isEmpty then (true, "No missing values in required columns")
  else (false, "Missing values in: " ++ reprDict mv)

/-- The `check_results` dict in its insertion order; the Checksum entry is
present only when check 4 ran. -/
def assembleResults (c1 c2 c3 : Bool × String) (c4 : Option (Bool × String)) :
    List (String × (Bool × String)) :=
  [("Columns Check", c1), ("Data Types Check", c2), ("Missing Values Check", c3)] ++
    (match c4 with
     | some x => [("Checksum Check", x)]
     | none => [])

/-- `errors = [msg for passed, msg in check_results.values() if not passed]`
(ImportApp.py line 136). -/
def failedMessages (cr : List (String × (Bool × String))) : List String :=
  (cr.filter (fun p => !p.2.1)).map (fun p => p.2.2)

/-- `validate_data(df, config)` (ImportApp.py lines 64-138): the four checks
in order, the collected failure messages, and the appended error
locations.  An exception escaping the Python function is an `error`. -/
def validate_data (df : DataFrame) (config : Config) : Except String ValidationResult :=
  let c1 := check1 df config
  match check2 df config.columns with
  | (df2, te, l2) =>
    let c2 := dataTypesEntry te
    match check3 df2 config.required_cols with
    | .error e => .error e
    | .ok (mv, l3) =>
      let c3 := missingValuesEntry mv
      match check4 df2 config.numeric_cols with
      | .error e => .error e
      | .ok (df4, c4, l4) =>
        let cr := assembleResults c1 c2 c3 c4
        .ok ⟨df4, cr, failedMessages cr, l2 ++ l3 ++ l4⟩

/-- The `Valuations` sheet config of the `DATASETS` registry
(ImportApp.py lines 13-21); the integer sheet id 0 is rendered "0". -/
def valuationsSheet : Config :=
  ⟨"0", "valuations", [("date", "datetime"), ("asset", "str"), ("value", "float")],
    ["date", "asset", "value"], ["value"]⟩

/-- The `Risk` sheet config (ImportApp.py lines 22-30). -/
def riskSheet : Config :=
  ⟨"0", "risk", [("date", "datetime"), ("risk_factor", "str"), ("exposure", "float")],
    ["date", "risk_factor", "exposure"], ["exposure"]⟩

/-- The `Actuals` sheet config of `P&L` (ImportApp.py lines 33-39). -/
def pnlActualsSheet : Config :=
  ⟨"Actuals", "pnl_actuals", [("date", "datetime"), ("account", "str"), ("profit_loss", "float")],
    ["date", "account", "profit_loss"], ["profit_loss"]⟩

/-- The `KPIs` sheet config of `P&L` (ImportApp.py lines 40-46). -/
def pnlKpisSheet : Config :=
  ⟨"KPIs", "pnl_kpis",
    [("date", "datetime"), ("kpi_type", "str"), ("kpi_name", "str"), ("kpi_value", "float")],
    ["date", "kpi_type", "kpi_name", "kpi_value"], ["kpi_value"]⟩

/-- The dataset registry `DATASETS` (ImportApp.py lines 12-49). -/
def DATASETS : List (String × List Config) :=
  [("Valuations", [valuationsSheet]), ("Risk", [riskSheet]),
    ("P&L", [pnlActualsSheet, pnlKpisSheet])]

/-- The mathematical sum the checksum check computes for row `i`: the
skipna sum of the numeric-column cells (nulls and out-of-range cells
contribute 0). -/
def rowTotal (df : DataFrame) (numeric : List String) (i : ℕ) : ℚ :=
  (numeric.map (fun c => floatPart (df.cell c i))).sum

/-- The `type_errors` entry that check 2 contributes for one item of the
`columns` mapping: for a present datetime- or float-tagged column with at
least one post-coercion null, the column name with its null positions. -/
def typeErrEntry (df : DataFrame) (p : String × String) : Option (String × List ℕ) :=
  (df.getCol p.1).elim none (fun vs =>
    if p.2 = "datetime" ∨ p.2 = "float" then
      if (nullIndices (vs.map (coerceTag p.2))).isEmpty then none
      else some (p.1, nullIndices (vs.map (coerceTag p.2)))
    else none)

/-- The error locations that check 2 contributes for one item of the
`columns` mapping. -/
def typeErrLocs (df : DataFrame) (p : String × String) : List (ℕ × String) :=
  (df.getCol p.1).elim [] (fun vs =>
    if p.2 = "datetime" ∨ p.2 = "float" then
      (nullIndices (vs.map (coerceTag p.2))).map (fun i => (i, p.1))
    else [])

/-- Whether a validation run returned (rather than raising). -/
def isOkE (r : Except String ValidationResult) : Bool :=
  match r with
  | .ok _ => true
  | .error _ => false

/-- Scenario-B table: `[\x7bdate:"bad-date", asset:"AAPL", value:"100"\x7d]`. -/
def dfScenB : DataFrame :=
  ⟨[("date", [Value.vStr "bad-date"]), ("asset", [Value.vStr "AAPL"]),
    ("value", [Value.vStr "100"])]⟩

/-- The result of validating the scenario-B table with the Valuations config. -/
def resScenB : ValidationResult :=
  ⟨⟨[("date", [Value.vNull]), ("asset", [Value.vStr "AAPL"]), ("value", [Value.vFloat 100])]⟩,
   [("Columns Check", (true, "All required columns present in sheet '0'")),
    ("Data Types Check", (false, "Invalid data types in: \x7b'date': [0]\x7d")),
    ("Missing Values Check", (false, "Missing values in: \x7b'date': [0]\x7d")),
    ("Checksum Check", (true, "All checksums valid"))],
   ["Invalid data types in: \x7b'date': [0]\x7d", "Missing values in: \x7b'date': [0]\x7d"],
   [(0, "date"), (0, "date")]⟩

/-- Scenario-A table: `[\x7bdate:"2024-01-01", asset:"AAPL", value:"100.5"\x7d]`. -/
def dfScenA : DataFrame :=
  ⟨[("date", [Value.vStr "2024-01-01"]), ("asset", [Value.vStr "AAPL"]),
    ("value", [Value.vStr "100.5"])]⟩

/-- The (fully passing) result of validating the scenario-A table. -/
def resScenA : ValidationResult :=
  ⟨⟨[("date", [Value.vDate 20240101]), ("asset", [Value.vStr "AAPL"]),
     ("value", [Value.vFloat (201 / 2)])]⟩,
   [("Columns Check", (true, "All required columns present in sheet '0'")),
    ("Data Types Check", (true, "All data types valid")),
    ("Missing Values Check", (true, "No missing values in required columns")),
    ("Checksum Check", (true, "All checksums valid"))],
   [], []⟩

/-- A table missing the required `date` and `value` columns. -/
def dfMissing : DataFrame := ⟨[("asset", [Value.vStr "AAPL"])]⟩

/-- A table with unparseable date, parseable asset and a negative value:
all three data-quality checks fail, none is skipped. -/
def dfAllFail : DataFrame :=
  ⟨[("date", [Value.vStr "bad-date"]), ("asset", [Value.vStr "AAPL"]),
    ("value", [Value.vStr "-5"])]⟩

/-- A config with two numeric columns. -/
def cfgTwoNum : Config := ⟨"0", "t", [("a", "float"), ("b", "float")], ["a", "b"], ["a", "b"]⟩

/-- One row whose first numeric cell is unparseable and whose second is 5. -/
def dfNullPlusFive : DataFrame := ⟨[("a", [Value.vStr "x"]), ("b", [Value.vStr "5"])]⟩

/-- The result of validating `dfNullPlusFive` against `cfgTwoNum`: the row
has a null numeric cell yet the Checksum Check passes (5 > 0). -/
def resNullPlusFive : ValidationResult :=
  ⟨⟨[("a", [Value.vNull]), ("b", [Value.vFloat 5])]⟩,
   [("Columns Check", (true, "All required columns present in sheet '0'")),
    ("Data Types Check", (false, "Invalid data types in: \x7b'a': [0]\x7d")),
    ("Missing Values Check", (false, "Missing values in: \x7b'a': [0]\x7d")),
    ("Checksum Check", (true, "All checksums valid"))],
   ["Invalid data types in: \x7b'a': [0]\x7d", "Missing values in: \x7b'a': [0]\x7d"],
   [(0, "a"), (0, "a")]⟩

/-- A single all-null numeric row (for the skipna checksum behaviour). -/
def dfNullRow : DataFrame := ⟨[("a", [Value.vNull])]⟩

/-- A config whose required and numeric column is named `checksum`. -/
def cfgChecksumCol : Config :=
  ⟨"0", "t", [("checksum", "float")], ["checksum"], ["checksum"]⟩

/-- A one-row table holding only a `checksum` column. -/
def dfChecksumCol : DataFrame := ⟨[("checksum", [Value.vStr "5"])]⟩

/-- Validating `dfChecksumCol` against `cfgChecksumCol` passes every check
but the temporary-column drop removes the only data column. -/
def resChecksumCol : ValidationResult :=
  ⟨⟨[]⟩,
   [("Columns Check", (true, "All required columns present in sheet '0'")),
    ("Data Types Check", (true, "All data types valid")),
    ("Missing Values Check", (true, "No missing values in required columns")),
    ("Checksum Check", (true, "All checksums valid"))],
   [], []⟩

/-- The column-free table. -/
def DFempty : DataFrame := ⟨[]⟩

/-- A config whose numeric column `a` is not among its required columns. -/
def cfgNumOnly : Config := ⟨"0", "t", [("a", "float")], [], ["a"]⟩

/-- A valid table that additionally carries a caller-provided `checksum`
column with the value 7. -/
def dfCallerChecksum : DataFrame :=
  ⟨[("date", [Value.vStr "2024-01-01"]), ("asset", [Value.vStr "AAPL"]),
    ("value", [Value.vStr "100.5"]), ("checksum", [Value.vFloat 7])]⟩

/-- Validating `dfCallerChecksum`: its `checksum` column is overwritten and
dropped, the rest passes. -/
def resCallerChecksum : ValidationResult :=
  ⟨⟨[("date", [Value.vDate 20240101]), ("asset", [Value.vStr "AAPL"]),
     ("value", [Value.vFloat (201 / 2)])]⟩,
   [("Columns Check", (true, "All required columns present in sheet '0'")),
    ("Data Types Check", (true, "All data types valid")),
    ("Missing Values Check", (true, "No missing values in required columns")),
    ("Checksum Check", (true, "All checksums valid"))],
   [], []⟩

/-- A table whose required string column `asset` holds a null source cell. -/
def dfNullStr : DataFrame :=
  ⟨[("date", [Value.vStr "2024-01-01"]), ("asset", [Value.vNull]),
    ("value", [Value.vStr "1"])]⟩

/-- Validating `dfNullStr`: the null string cell became the literal "nan"
and nothing was flagged. -/
def resNullStr : ValidationResult :=
  ⟨⟨[("date", [Value.vDate 20240101]), ("asset", [Value.vStr "nan"]),
     ("value", [Value.vFloat 1])]⟩,
   [("Columns Check", (true, "All required columns present in sheet '0'")),
    ("Data Types Check", (true, "All data types valid")),
    ("Missing Values Check", (true, "No missing values in required columns")),
    ("Checksum Check", (true, "All checksums valid"))],
   [], []⟩

/-- A two-row numeric column with one nonpositive row. -/
def dfTwoRows : DataFrame := ⟨[("value", [Value.vFloat (-5), Value.vFloat 3])]⟩

/-! ### Basic lemmas about the frame operations -/

theorem DataFrame.getCol_isSome (df : DataFrame) (c : String) :
    (df.getCol c).isSome = df.hasCol c := rfl

theorem find?_set_self {c : String} {vs : List Value} (l : List (String × List Value))
    (h : (l.find? (fun p => p.1 = c)).isSome) :
    ((l.map (fun p => if p.1 = c then (c, vs) else p)).find? (fun p => p.1 = c)) = some (c, vs) := by
  induction l with
  | nil => simp at h
  | cons p rest ih =>
    by_cases hp : p.1 = c
    · simp [hp]
    · rw [List.map_cons, if_neg hp, List.find?_cons_of_neg _ (by simpa using hp)]
      rw [List.find?_cons_of_neg _ (by simpa using hp)] at h
      exact ih h


theorem find?_set_ne {c c' : String} {vs : List Value} (l : List (String × List Value))
    (hne : c' ≠ c) :
    ((l.map (fun p => if p.1 = c then (c, vs) else p)).find? (fun p => p.1 = c')) =
      l.find? (fun p => p.1 = c') := by
  induction l with
  | nil => simp
  | cons p rest ih =>
    by_cases hp : p.1 = c
    · have hcc : ¬ (c = c') := fun h => hne h.symm
      rw [List.map_cons, if_pos hp]
      rw [List.find?_cons_of_neg _ (by simp only [decide_eq_true_eq]; exact hcc),
        List.find?_cons_of_neg _ (by simp only [decide_eq_true_eq]; rw [hp]; exact hcc)]
      exact ih
    · rw [List.map_cons, if_neg hp]
      by_cases hp' : p.1 = c'
      · rw [List.find?_cons_of_pos _ (by simpa using hp'),
          List.find?_cons_of_pos _ (by simpa using hp')]
      · rw [List.find?_cons_of_neg _ (by simpa using hp'),
          List.find?_cons_of_neg _ (by simpa using hp')]
        exact ih

theorem find?_append_single_ne {c c' : String} {vs : List Value}
    (l : List (String × List Value)) (hne : c' ≠ c) :
    ((l ++ [(c, vs)]).find? (fun p => p.1 = c')) = l.find? (fun p => p.1 = c') := by
  induction l with
  | nil =>
    have hcc : ¬ (c = c') := fun h => hne h.symm
    simp only [List.nil_append]
    rw [List.find?_cons_of_neg _ (by simp only [decide_eq_true_eq]; exact hcc)]
  | cons p rest ih =>
    by_cases hp : p.1 = c'
    · rw [List.cons_append, List.find?_cons_of_pos _ (by simpa using hp),
        List.find?_cons_of_pos _ (by simpa using hp)]
    · rw [List.cons_append, List.find?_cons_of_neg _ (by simpa using hp),
        List.find?_cons_of_neg _ (by simpa using hp)]
      exact ih

theorem DataFrame.getCol_setCol_self (df : DataFrame) (c : String) (vs : List Value)
    (h : df.hasCol c = true) : (df.setCol c vs).getCol c = some vs := by
  unfold DataFrame.setCol
  rw [if_pos h]
  have h' : (df.cols.find? (fun p => p.1 = c)).isSome := by
    simpa [DataFrame.hasCol, DataFrame.getCol] using h
  show ((df.cols.map (fun p => if p.1 = c then (c, vs) else p)).find?
    (fun p => p.1 = c)).map (fun p => p.2) = some vs
  rw [find?_set_self _ h']
  rfl

theorem DataFrame.getCol_setCol_ne (df : DataFrame) (c c' : String) (vs : List Value)
    (hne : c' ≠ c) : (df.setCol c vs).getCol c' = df.getCol c' := by
  unfold DataFrame.setCol
  by_cases h : df.hasCol c
  · rw [if_pos h]
    show ((df.cols.map (fun p => if p.1 = c then (c, vs) else p)).find?
      (fun p => p.1 = c')).map (fun p => p.2) = _
    rw [find?_set_ne _ hne]
    rfl
  · rw [if_neg h]
    show (((df.cols ++ [(c, vs)]).find? (fun p => p.1 = c')).map (fun p => p.2)) = _
    rw [find?_append_single_ne _ hne]
    rfl

theorem DataFrame.names_setCol_of_hasCol (df : DataFrame) (c : String) (vs : List Value)
    (h : df.hasCol c = true) : (df.setCol c vs).names = df.names := by
  unfold DataFrame.setCol
  rw [if_pos h]
  show (df.cols.map (fun p => if p.1 = c then (c, vs) else p)).map (fun p => p.1) = _
  rw [List.map_map]
  apply List.map_congr_left
  intro p _
  by_cases hp : p.1 = c
  · simp [hp]
  · simp [hp]

theorem find?_filter_ne_none {c : String} (l : List (String × List Value)) :
    ((l.filter (fun p => ¬ (p.1 = c))).find? (fun p => p.1 = c)) = none := by
  induction l with
  | nil => rfl
  | cons p rest ih =>
    by_cases hp : p.1 = c
    · rw [List.filter_cons_of_neg (by simpa using hp)]
      exact ih
    · rw [List.filter_cons_of_pos (by simpa using hp),
        List.find?_cons_of_neg _ (by simpa using hp)]
      exact ih

theorem find?_filter_ne_keep {c c' : String} (l : List (String × List Value)) (hne : c' ≠ c) :
    ((l.filter (fun p => ¬ (p.1 = c))).find? (fun p => p.1 = c')) =
      l.find? (fun p => p.1 = c') := by
  induction l with
  | nil => rfl
  | cons p rest ih =>
    by_cases hp : p.1 = c
    · have hcc : ¬ (c = c') := fun h => hne h.symm
      rw [List.filter_cons_of_neg (by simpa using hp),
        List.find?_cons_of_neg _ (by simp only [decide_eq_true_eq]; rw [hp]; exact hcc)]
      exact ih
    · rw [List.filter_cons_of_pos (by simpa using hp)]
      by_cases hp' : p.1 = c'
      · rw [List.find?_cons_of_pos _ (by simpa using hp'),
          List.find?_cons_of_pos _ (by simpa using hp')]
      · rw [List.find?_cons_of_neg _ (by simpa using hp'),
          List.find?_cons_of_neg _ (by simpa using hp')]
        exact ih

theorem DataFrame.getCol_dropCol_self (df : DataFrame) (c : String) :
    (df.dropCol c).getCol c = none := by
  show ((df.cols.filter (fun p => ¬ (p.1 = c))).find? (fun p => p.1 = c)).map (fun p => p.2) = none
  rw [find?_filter_ne_none]
  rfl

theorem DataFrame.getCol_dropCol_ne (df : DataFrame) (c c' : String) (hne : c' ≠ c) :
    (df.dropCol c).getCol c' = df.getCol c' := by
  show ((df.cols.filter (fun p => ¬ (p.1 = c))).find? (fun p => p.1 = c')).map (fun p => p.2) = _
  rw [find?_filter_ne_keep _ hne]
  rfl

theorem DataFrame.hasCol_dropCol_self (df : DataFrame) (c : String) :
    (df.dropCol c).hasCol c = false := by
  unfold DataFrame.hasCol
  rw [DataFrame.getCol_dropCol_self]
  rfl

theorem DataFrame.setCol_dropCol_absent (df : DataFrame) (c : String) (vs : List Value)
    (h : df.hasCol c = false) : (df.setCol c vs).dropCol c = df := by
  unfold DataFrame.setCol
  rw [if_neg (by simp [h])]
  unfold DataFrame.dropCol
  have hfilter : (df.cols ++ [(c, vs)]).filter (fun p => ¬ (p.1 = c)) = df.cols := by
    rw [List.filter_append]
    have h1 : [(c, vs)].filter (fun p => ¬ ((p : String × List Value).1 = c)) = [] := by simp
    rw [h1, List.append_nil]
    apply List.filter_eq_self.mpr
    intro p hp
    simp only [decide_not, Bool.not_eq_true']
    apply decide_eq_false
    intro hpc
    have : (df.getCol c).isSome := by
      unfold DataFrame.getCol
      have : ∃ x ∈ df.cols, (fun p => decide (p.1 = c)) x = true :=
        ⟨p, hp, by simp [hpc]⟩
      rcases List.find?_isSome.mpr this with h'
      simpa using h'
    rw [show df.hasCol c = (df.getCol c).isSome from rfl] at h
    rw [this] at h
    cases h
  rw [hfilter]

theorem DataFrame.dropCol_absent (df : DataFrame) (c : String)
    (h : df.hasCol c = false) : df.dropCol c = df := by
  unfold DataFrame.dropCol
  have hfilter : df.cols.filter (fun p => ¬ (p.1 = c)) = df.cols := by
    apply List.filter_eq_self.mpr
    intro p hp
    simp only [decide_not, Bool.not_eq_true']
    apply decide_eq_false
    intro hpc
    have hs : (df.getCol c).isSome := by
      unfold DataFrame.getCol
      have : ∃ x ∈ df.cols, (fun p => decide (p.1 = c)) x = true :=
        ⟨p, hp, by simp [hpc]⟩
      simpa using List.find?_isSome.mpr this
    rw [show df.hasCol c = (df.getCol c).isSome from rfl, hs] at h
    cases h
  rw [hfilter]

theorem DataFrame.hasCol_iff_getCol (df : DataFrame) (c : String) :
    df.hasCol c = true ↔ ∃ vs, df.getCol c = some vs := by
  unfold DataFrame.hasCol
  cases h : df.getCol c with
  | none => simp [h]
  | some vs => simp [h]

theorem DataFrame.hasCol_iff_mem_names (df : DataFrame) (c : String) :
    df.hasCol c = true ↔ c ∈ df.names := by
  unfold DataFrame.hasCol DataFrame.getCol DataFrame.names
  constructor
  · intro h
    cases hf : df.cols.find? (fun p => p.1 = c) with
    | none => rw [hf] at h; cases h
    | some p =>
      have hmem := List.mem_of_find?_eq_some hf
      have hpc : p.1 = c := by simpa using List.find?_some hf
      exact List.mem_map.mpr ⟨p, hmem, hpc⟩
  · intro h
    rcases List.mem_map.mp h with ⟨p, hp, hpc⟩
    have hx : ∃ x ∈ df.cols, (fun q : String × List Value => decide (q.1 = c)) x = true :=
      ⟨p, hp, by simpa using hpc⟩
    have hs := List.find?_isSome.mpr hx
    cases hf : df.cols.find? (fun p => p.1 = c) with
    | none => rw [hf] at hs; cases hs
    | some p' => rfl

theorem mem_nullIndices (vs : List Value) (i : ℕ) :
    i ∈ nullIndices vs ↔ i < vs.length ∧ (vs.getD i Value.vNull).isNull = true := by
  unfold nullIndices
  rw [List.mem_filter, List.mem_range]

theorem nullIndices_eq_nil_iff (vs : List Value) :
    nullIndices vs = [] ↔ ∀ v ∈ vs, v.isNull = false := by
  unfold nullIndices
  rw [List.filter_eq_nil_iff]
  constructor
  · intro h v hv
    rcases List.mem_iff_getElem.mp hv with ⟨i, hi, hget⟩
    have := h i (List.mem_range.mpr hi)
    rw [List.getD_eq_getElem?_getD, List.getElem?_eq_getElem hi] at this
    simp only [Option.getD_some] at this
    rw [hget] at this
    simpa using this
  · intro h i hi
    rw [List.mem_range] at hi
    rw [List.getD_eq_getElem?_getD, List.getElem?_eq_getElem hi]
    simp only [Option.getD_some]
    simp [h _ (List.getElem_mem hi)]

theorem nullIndices_map_of_never_null {f : Value → Value}
    (hf : ∀ v, (f v).isNull = false) (vs : List Value) :
    nullIndices (vs.map f) = [] := by
  rw [nullIndices_eq_nil_iff]
  intro v hv
  rcases List.mem_map.mp hv with ⟨w, _, hw⟩
  rw [← hw]
  exact hf w

theorem map_set_id_of_not_mem {c : String} {vs : List Value}
    (l : List (String × List Value)) (h : c ∉ l.map (fun p => p.1)) :
    l.map (fun p => if p.1 = c then (c, vs) else p) = l := by
  induction l with
  | nil => rfl
  | cons p rest ih =>
    rw [List.map_cons] at h ⊢
    have hp : ¬ (p.1 = c) := fun hpc => h (by rw [← hpc]; exact List.mem_cons_self _ _)
    rw [if_neg hp, ih (fun hc => h (List.mem_cons_of_mem _ hc))]

theorem map_set_self {c : String} {vs : List Value} (l : List (String × List Value))
    (hn : (l.map (fun p => p.1)).Nodup)
    (h : (l.find? (fun p => p.1 = c)).map (fun p => p.2) = some vs) :
    l.map (fun p => if p.1 = c then (c, vs) else p) = l := by
  induction l with
  | nil => rw [List.find?_nil] at h; cases h
  | cons p rest ih =>
    rw [List.map_cons] at hn
    by_cases hp : p.1 = c
    · rw [List.find?_cons_of_pos _ (by simpa using hp)] at h
      have hpv : p.2 = vs := by simpa using h
      have hcrest : c ∉ rest.map (fun p => p.1) := by
        rw [← hp]
        exact (List.nodup_cons.mp hn).1
      rw [List.map_cons, if_pos hp, map_set_id_of_not_mem _ hcrest]
      congr 1
      rw [← hp, ← hpv]
    · rw [List.find?_cons_of_neg _ (by simpa using hp)] at h
      rw [List.map_cons, if_neg hp, ih (List.nodup_cons.mp hn).2 h]

theorem DataFrame.setCol_self (df : DataFrame) (c : String) (vs : List Value)
    (hn : df.names.Nodup) (h : df.getCol c = some vs) : df.setCol c vs = df := by
  have hhas : df.hasCol c = true := by unfold DataFrame.hasCol; rw [h]; rfl
  unfold DataFrame.setCol
  rw [if_pos hhas]
  obtain ⟨l⟩ := df
  congr 1
  exact map_set_self l hn h

theorem DataFrame.names_dropCol_sublist (df : DataFrame) (c : String) :
    (df.dropCol c).names.Sublist df.names := by
  unfold DataFrame.dropCol DataFrame.names
  exact (List.filter_sublist _).map _

theorem DataFrame.nodup_dropCol (df : DataFrame) (c : String)
    (hn : df.names.Nodup) : (df.dropCol c).names.Nodup :=
  (df.names_dropCol_sublist c).nodup hn

theorem DataFrame.nrows_setCol (df : DataFrame) (c : String) (vs vs0 : List Value)
    (h : df.getCol c = some vs0) (hlen : vs.length = vs0.length) :
    (df.setCol c vs).nrows = df.nrows := by
  have hhas : df.hasCol c = true := by unfold DataFrame.hasCol; rw [h]; rfl
  unfold DataFrame.setCol
  rw [if_pos hhas]
  obtain ⟨l⟩ := df
  cases l with
  | nil => rfl
  | cons p rest =>
    unfold DataFrame.getCol at h
    rw [List.map_cons]
    by_cases hp : p.1 = c
    · rw [if_pos hp]
      rw [List.find?_cons_of_pos _ (by simpa using hp)] at h
      have hpv : p.2 = vs0 := by simpa using h
      show vs.length = p.2.length
      rw [hlen, hpv]
    · rw [if_neg hp]
      rfl

/-! ### Lemmas about check 2 (type coercion) -/

theorem coerceTag_datetime (v : Value) : coerceTag "datetime" v = coerceDatetime v := by
  simp [coerceTag]

theorem coerceTag_float (v : Value) : coerceTag "float" v = coerceFloat v := by
  simp [coerceTag]

theorem coerceTag_str (v : Value) : coerceTag "str" v = coerceStr v := by
  simp [coerceTag]

theorem coerceTag_other (tag : String) (h1 : ¬ (tag = "datetime")) (h2 : ¬ (tag = "float"))
    (h3 : ¬ (tag = "str")) (v : Value) : coerceTag tag v = v := by
  unfold coerceTag
  rw [if_neg h1, if_neg h2, if_neg h3]

theorem coerceStr_not_null (v : Value) : (coerceStr v).isNull = false := rfl

theorem coerceDatetime_idem (v : Value) :
    coerceDatetime (coerceDatetime v) = coerceDatetime v := by
  cases v with
  | vStr s =>
    cases hp : parseDateString s with
    | none => simp [coerceDatetime, hp]
    | some d => simp [coerceDatetime, hp]
  | vFloat q => rfl
  | vDate d => rfl
  | vNull => rfl

theorem coerceFloat_idem (v : Value) : coerceFloat (coerceFloat v) = coerceFloat v := by
  cases v with
  | vStr s =>
    cases hp : parseFloatString s with
    | none => simp [coerceFloat, hp]
    | some q => simp [coerceFloat, hp]
  | vFloat q => rfl
  | vDate d => rfl
  | vNull => rfl

theorem coerceStr_idem (v : Value) : coerceStr (coerceStr v) = coerceStr v := rfl

theorem coerceTag_idem (tag : String) (v : Value) :
    coerceTag tag (coerceTag tag v) = coerceTag tag v := by
  by_cases h1 : tag = "datetime"
  · simp only [coerceTag, if_pos h1]
    exact coerceDatetime_idem v
  · by_cases h2 : tag = "float"
    · simp only [coerceTag, if_neg h1, if_pos h2]
      exact coerceFloat_idem v
    · by_cases h3 : tag = "str"
      · simp only [coerceTag, if_neg h1, if_neg h2, if_pos h3]
        exact coerceStr_idem v
      · simp only [coerceTag, if_neg h1, if_neg h2, if_neg h3]

theorem map_coerceTag_idem (tag : String) (vs : List Value) :
    (vs.map (coerceTag tag)).map (coerceTag tag) = vs.map (coerceTag tag) := by
  rw [List.map_map]
  apply List.map_congr_left
  intro v _
  exact coerceTag_idem tag v

theorem check2_congr (df dg : DataFrame) (cols : List (String × String))
    (h : ∀ p ∈ cols, df.getCol p.1 = dg.getCol p.1) :
    (check2 df cols).2 = (check2 dg cols).2 := by
  induction cols generalizing df dg with
  | nil => rfl
  | cons p rest ih =>
    obtain ⟨col, tag⟩ := p
    have hcol : df.getCol col = dg.getCol col := h (col, tag) (List.mem_cons_self _ _)
    have hrest : ∀ p ∈ rest, df.getCol p.1 = dg.getCol p.1 :=
      fun p hp => h p (List.mem_cons_of_mem _ hp)
    cases hg : dg.getCol col with
    | none =>
      have hf : df.getCol col = none := by rw [hcol, hg]
      simp only [check2, hf, hg]
      exact ih df dg hrest
    | some vs =>
      have hf : df.getCol col = some vs := by rw [hcol, hg]
      have hhasf : df.hasCol col = true := by unfold DataFrame.hasCol; rw [hf]; rfl
      have hhasg : dg.hasCol col = true := by unfold DataFrame.hasCol; rw [hg]; rfl
      have hsetrest : ∀ (ws : List Value), ∀ p ∈ rest,
          (df.setCol col ws).getCol p.1 = (dg.setCol col ws).getCol p.1 := by
        intro ws p hp
        by_cases hpc : p.1 = col
        · rw [hpc, DataFrame.getCol_setCol_self _ _ _ hhasf,
            DataFrame.getCol_setCol_self _ _ _ hhasg]
        · rw [DataFrame.getCol_setCol_ne _ _ _ _ hpc, DataFrame.getCol_setCol_ne _ _ _ _ hpc]
          exact hrest p hp
      simp only [check2, hf, hg]
      by_cases h1 : tag = "datetime"
      · rw [if_pos h1, if_pos h1]
        have := ih (df.setCol col (vs.map coerceDatetime)) (dg.setCol col (vs.map coerceDatetime))
          (hsetrest _)
        rw [this]
      · rw [if_neg h1, if_neg h1]
        by_cases h2 : tag = "float"
        · rw [if_pos h2, if_pos h2]
          have := ih (df.setCol col (vs.map coerceFloat)) (dg.setCol col (vs.map coerceFloat))
            (hsetrest _)
          rw [this]
        · rw [if_neg h2, if_neg h2]
          by_cases h3 : tag = "str"
          · rw [if_pos h3, if_pos h3]
            exact ih _ _ (hsetrest _)
          · rw [if_neg h3, if_neg h3]
            exact ih df dg hrest

theorem check2_names (df : DataFrame) (cols : List (String × String)) :
    (check2 df cols).1.names = df.names := by
  induction cols generalizing df with
  | nil => rfl
  | cons p rest ih =>
    obtain ⟨col, tag⟩ := p
    cases hf : df.getCol col with
    | none =>
      simp only [check2, hf]
      exact ih df
    | some vs =>
      have hhas : df.hasCol col = true := by unfold DataFrame.hasCol; rw [hf]; rfl
      simp only [check2, hf]
      by_cases h1 : tag = "datetime"
      · rw [if_pos h1]
        show (check2 (df.setCol col (vs.map coerceDatetime)) rest).1.names = df.names
        rw [ih, DataFrame.names_setCol_of_hasCol _ _ _ hhas]
      · rw [if_neg h1]
        by_cases h2 : tag = "float"
        · rw [if_pos h2]
          show (check2 (df.setCol col (vs.map coerceFloat)) rest).1.names = df.names
          rw [ih, DataFrame.names_setCol_of_hasCol _ _ _ hhas]
        · rw [if_neg h2]
          by_cases h3 : tag = "str"
          · rw [if_pos h3]
            rw [ih, DataFrame.names_setCol_of_hasCol _ _ _ hhas]
          · rw [if_neg h3]
            exact ih df

theorem check2_getCol_not_key (df : DataFrame) (cols : List (String × String)) (c : String)
    (h : c ∉ cols.map (fun p => p.1)) : (check2 df cols).1.getCol c = df.getCol c := by
  induction cols generalizing df with
  | nil => rfl
  | cons p rest ih =>
    obtain ⟨col, tag⟩ := p
    rw [List.map_cons] at h
    have hc : ¬ (c = col) := fun hcc => h (by rw [hcc]; exact List.mem_cons_self _ _)
    have hrest : c ∉ rest.map (fun p => p.1) := fun hr => h (List.mem_cons_of_mem _ hr)
    cases hf : df.getCol col with
    | none =>
      simp only [check2, hf]
      exact ih df hrest
    | some vs =>
      simp only [check2, hf]
      by_cases h1 : tag = "datetime"
      · rw [if_pos h1]
        show (check2 (df.setCol col (vs.map coerceDatetime)) rest).1.getCol c = df.getCol c
        rw [ih _ hrest, DataFrame.getCol_setCol_ne _ _ _ _ hc]
      · rw [if_neg h1]
        by_cases h2 : tag = "float"
        · rw [if_pos h2]
          show (check2 (df.setCol col (vs.map coerceFloat)) rest).1.getCol c = df.getCol c
          rw [ih _ hrest, DataFrame.getCol_setCol_ne _ _ _ _ hc]
        · rw [if_neg h2]
          by_cases h3 : tag = "str"
          · rw [if_pos h3]
            rw [ih _ hrest, DataFrame.getCol_setCol_ne _ _ _ _ hc]
          · rw [if_neg h3]
            exact ih df hrest

theorem setCol_getCol_rest (df : DataFrame) (col : String) (ws : List Value)
    (rest : List (String × String)) (hnot : col ∉ rest.map (fun p => p.1)) :
    ∀ p ∈ rest, (df.setCol col ws).getCol p.1 = df.getCol p.1 := by
  intro p hp
  have hne : p.1 ≠ col := by
    intro h
    exact hnot (h ▸ List.mem_map.mpr ⟨p, hp, rfl⟩)
  exact DataFrame.getCol_setCol_ne df col p.1 ws hne

theorem check2_getCol_spec : ∀ (cols : List (String × String)) (df : DataFrame),
    (cols.map (fun p => p.1)).Nodup → ∀ c : String,
    (check2 df cols).1.getCol c =
      (match cols.find? (fun p => p.1 = c) with
       | some p => (df.getCol c).map (fun vs => vs.map (coerceTag p.2))
       | none => df.getCol c) := by
  intro cols
  induction cols with
  | nil => intro df _ c; rfl
  | cons p rest ih =>
    intro df hk c
    obtain ⟨col, tag⟩ := p
    rw [List.map_cons] at hk
    have hnot : col ∉ rest.map (fun p => p.1) := (List.nodup_cons.mp hk).1
    have hkrest := (List.nodup_cons.mp hk).2
    by_cases hceq : col = c
    · subst hceq
      rw [List.find?_cons_of_pos _ (by simp)]
      show (check2 df ((col, tag) :: rest)).1.getCol col =
        (df.getCol col).map (fun vs => vs.map (coerceTag tag))
      cases hf : df.getCol col with
      | none =>
        simp only [check2, hf]
        rw [check2_getCol_not_key df rest col hnot, hf]
        rfl
      | some vs =>
        have hhas : df.hasCol col = true := by unfold DataFrame.hasCol; rw [hf]; rfl
        by_cases h1 : tag = "datetime"
        · have hmap : vs.map coerceDatetime = vs.map (coerceTag tag) := by
            rw [h1]
            exact (List.map_congr_left (fun v _ => coerceTag_datetime v)).symm
          simp only [check2, hf]
          rw [if_pos h1]
          show (check2 (df.setCol col (vs.map coerceDatetime)) rest).1.getCol col = _
          rw [check2_getCol_not_key _ rest col hnot,
            DataFrame.getCol_setCol_self _ _ _ hhas, hmap]
          rfl
        · by_cases h2 : tag = "float"
          · have hmap : vs.map coerceFloat = vs.map (coerceTag tag) := by
              rw [h2]
              exact (List.map_congr_left (fun v _ => coerceTag_float v)).symm
            simp only [check2, hf]
            rw [if_neg h1, if_pos h2]
            show (check2 (df.setCol col (vs.map coerceFloat)) rest).1.getCol col = _
            rw [check2_getCol_not_key _ rest col hnot,
              DataFrame.getCol_setCol_self _ _ _ hhas, hmap]
            rfl
          · by_cases h3 : tag = "str"
            · have hmap : vs.map coerceStr = vs.map (coerceTag tag) := by
                rw [h3]
                exact (List.map_congr_left (fun v _ => coerceTag_str v)).symm
              simp only [check2, hf]
              rw [if_neg h1, if_neg h2, if_pos h3]
              show (check2 (df.setCol col (vs.map coerceStr)) rest).1.getCol col = _
              rw [check2_getCol_not_key _ rest col hnot,
                DataFrame.getCol_setCol_self _ _ _ hhas, hmap]
              rfl
            · have hmap : vs = vs.map (coerceTag tag) := by
                refine ((List.map_congr_left (fun v _ => coerceTag_other tag h1 h2 h3 v)).trans
                  (List.map_id vs)).symm
              simp only [check2, hf]
              rw [if_neg h1, if_neg h2, if_neg h3]
              show (check2 df rest).1.getCol col = _
              rw [check2_getCol_not_key df rest col hnot, hf]
              show some vs = some (vs.map (coerceTag tag))
              rw [← hmap]
    · rw [List.find?_cons_of_neg _ (by simpa using hceq)]
      have hcne : c ≠ col := fun h => hceq h.symm
      cases hf : df.getCol col with
      | none =>
        simp only [check2, hf]
        exact ih df hkrest c
      | some vs =>
        by_cases h1 : tag = "datetime"
        · simp only [check2, hf]
          rw [if_pos h1]
          show (check2 (df.setCol col (vs.map coerceDatetime)) rest).1.getCol c = _
          rw [ih _ hkrest c, DataFrame.getCol_setCol_ne df col c _ hcne]
        · by_cases h2 : tag = "float"
          · simp only [check2, hf]
            rw [if_neg h1, if_pos h2]
            show (check2 (df.setCol col (vs.map coerceFloat)) rest).1.getCol c = _
            rw [ih _ hkrest c, DataFrame.getCol_setCol_ne df col c _ hcne]
          · by_cases h3 : tag = "str"
            · simp only [check2, hf]
              rw [if_neg h1, if_neg h2, if_pos h3]
              show (check2 (df.setCol col (vs.map coerceStr)) rest).1.getCol c = _
              rw [ih _ hkrest c, DataFrame.getCol_setCol_ne df col c _ hcne]
            · simp only [check2, hf]
              rw [if_neg h1, if_neg h2, if_neg h3]
              exact ih df hkrest c

theorem check2_errs_spec : ∀ (cols : List (String × String)) (df : DataFrame),
    (cols.map (fun p => p.1)).Nodup →
    (check2 df cols).2.1 = cols.filterMap (typeErrEntry df) := by
  intro cols
  induction cols with
  | nil => intro df _; rfl
  | cons p rest ih =>
    intro df hk
    obtain ⟨col, tag⟩ := p
    rw [List.map_cons] at hk
    have hnot : col ∉ rest.map (fun p => p.1) := (List.nodup_cons.mp hk).1
    have hkrest := (List.nodup_cons.mp hk).2
    cases hf : df.getCol col with
    | none =>
      have hfa : typeErrEntry df (col, tag) = none := by
        unfold typeErrEntry
        rw [hf]
        rfl
      rw [List.filterMap_cons_none hfa]
      simp only [check2, hf]
      exact ih df hkrest
    | some vs =>
      by_cases h1 : tag = "datetime"
      · have hmap : vs.map coerceDatetime = vs.map (coerceTag tag) := by
          rw [h1]
          exact (List.map_congr_left (fun v _ => coerceTag_datetime v)).symm
        have hcongr := check2_congr (df.setCol col (vs.map (coerceTag tag))) df rest
          (setCol_getCol_rest df col _ rest hnot)
        by_cases hinv : (nullIndices (vs.map (coerceTag tag))).isEmpty = true
        · have hfa : typeErrEntry df (col, tag) = none := by
            unfold typeErrEntry
            rw [hf]
            show (if tag = "datetime" ∨ tag = "float" then
                if (nullIndices (vs.map (coerceTag tag))).isEmpty then none
                else some (col, nullIndices (vs.map (coerceTag tag)))
              else none) = none
            rw [if_pos (Or.inl h1), if_pos hinv]
          rw [List.filterMap_cons_none hfa]
          simp only [check2, hf]
          rw [if_pos h1, hmap, if_pos hinv]
          rw [List.nil_append, congrArg Prod.fst hcongr]
          exact ih df hkrest
        · have hfa : typeErrEntry df (col, tag) =
              some (col, nullIndices (vs.map (coerceTag tag))) := by
            unfold typeErrEntry
            rw [hf]
            show (if tag = "datetime" ∨ tag = "float" then
                if (nullIndices (vs.map (coerceTag tag))).isEmpty then none
                else some (col, nullIndices (vs.map (coerceTag tag)))
              else none) = some (col, nullIndices (vs.map (coerceTag tag)))
            rw [if_pos (Or.inl h1), if_neg hinv]
          rw [List.filterMap_cons_some hfa]
          simp only [check2, hf]
          rw [if_pos h1, hmap, if_neg hinv]
          rw [List.singleton_append, congrArg Prod.fst hcongr]
          rw [ih df hkrest]
      · by_cases h2 : tag = "float"
        · have hmap : vs.map coerceFloat = vs.map (coerceTag tag) := by
            rw [h2]
            exact (List.map_congr_left (fun v _ => coerceTag_float v)).symm
          have hcongr := check2_congr (df.setCol col (vs.map (coerceTag tag))) df rest
            (setCol_getCol_rest df col _ rest hnot)
          by_cases hinv : (nullIndices (vs.map (coerceTag tag))).isEmpty = true
          · have hfa : typeErrEntry df (col, tag) = none := by
              unfold typeErrEntry
              rw [hf]
              show (if tag = "datetime" ∨ tag = "float" then
                  if (nullIndices (vs.map (coerceTag tag))).isEmpty then none
                  else some (col, nullIndices (vs.map (coerceTag tag)))
                else none) = none
              rw [if_pos (Or.inr h2), if_pos hinv]
            rw [List.filterMap_cons_none hfa]
            simp only [check2, hf]
            rw [if_neg h1, if_pos h2, hmap, if_pos hinv]
            rw [List.nil_append, congrArg Prod.fst hcongr]
            exact ih df hkrest
          · have hfa : typeErrEntry df (col, tag) =
                some (col, nullIndices (vs.map (coerceTag tag))) := by
              unfold typeErrEntry
              rw [hf]
              show (if tag = "datetime" ∨ tag = "float" then
                  if (nullIndices (vs.map (coerceTag tag))).isEmpty then none
                  else some (col, nullIndices (vs.map (coerceTag tag)))
                else none) = some (col, nullIndices (vs.map (coerceTag tag)))
              rw [if_pos (Or.inr h2), if_neg hinv]
            rw [List.filterMap_cons_some hfa]
            simp only [check2, hf]
            rw [if_neg h1, if_pos h2, hmap, if_neg hinv]
            rw [List.singleton_append, congrArg Prod.fst hcongr]
            rw [ih df hkrest]
        · have hor : ¬ (tag = "datetime" ∨ tag = "float") := fun h => h.elim h1 h2
          have hfa : typeErrEntry df (col, tag) = none := by
            unfold typeErrEntry
            rw [hf]
            show (if tag = "datetime" ∨ tag = "float" then
                if (nullIndices (vs.map (coerceTag tag))).isEmpty then none
                else some (col, nullIndices (vs.map (coerceTag tag)))
              else none) = none
            rw [if_neg hor]
          rw [List.filterMap_cons_none hfa]
          by_cases h3 : tag = "str"
          · have hcongr := check2_congr (df.setCol col (vs.map coerceStr)) df rest
              (setCol_getCol_rest df col _ rest hnot)
            simp only [check2, hf]
            rw [if_neg h1, if_neg h2, if_pos h3]
            rw [congrArg Prod.fst hcongr]
            exact ih df hkrest
          · simp only [check2, hf]
            rw [if_neg h1, if_neg h2, if_neg h3]
            exact ih df hkrest

theorem check2_locs_spec : ∀ (cols : List (String × String)) (df : DataFrame),
    (cols.map (fun p => p.1)).Nodup →
    (check2 df cols).2.2 = cols.flatMap (typeErrLocs df) := by
  intro cols
  induction cols with
  | nil => intro df _; rfl
  | cons p rest ih =>
    intro df hk
    obtain ⟨col, tag⟩ := p
    rw [List.map_cons] at hk
    have hnot : col ∉ rest.map (fun p => p.1) := (List.nodup_cons.mp hk).1
    have hkrest := (List.nodup_cons.mp hk).2
    rw [List.flatMap_cons]
    cases hf : df.getCol col with
    | none =>
      have hfa : typeErrLocs df (col, tag) = [] := by
        unfold typeErrLocs
        rw [hf]
        rfl
      rw [hfa, List.nil_append]
      simp only [check2, hf]
      exact ih df hkrest
    | some vs =>
      by_cases h1 : tag = "datetime"
      · have hmap : vs.map coerceDatetime = vs.map (coerceTag tag) := by
          rw [h1]
          exact (List.map_congr_left (fun v _ => coerceTag_datetime v)).symm
        have hcongr := check2_congr (df.setCol col (vs.map (coerceTag tag))) df rest
          (setCol_getCol_rest df col _ rest hnot)
        have hfa : typeErrLocs df (col, tag) =
            (nullIndices (vs.map (coerceTag tag))).map (fun i => (i, col)) := by
          unfold typeErrLocs
          rw [hf]
          show (if tag = "datetime" ∨ tag = "float" then
              (nullIndices (vs.map (coerceTag tag))).map (fun i => (i, col))
            else []) = _
          rw [if_pos (Or.inl h1)]
        rw [hfa]
        simp only [check2, hf]
        rw [if_pos h1, hmap]
        rw [congrArg Prod.snd hcongr]
        rw [ih df hkrest]
      · by_cases h2 : tag = "float"
        · have hmap : vs.map coerceFloat = vs.map (coerceTag tag) := by
            rw [h2]
            exact (List.map_congr_left (fun v _ => coerceTag_float v)).symm
          have hcongr := check2_congr (df.setCol col (vs.map (coerceTag tag))) df rest
            (setCol_getCol_rest df col _ rest hnot)
          have hfa : typeErrLocs df (col, tag) =
              (nullIndices (vs.map (coerceTag tag))).map (fun i => (i, col)) := by
            unfold typeErrLocs
            rw [hf]
            show (if tag = "datetime" ∨ tag = "float" then
                (nullIndices (vs.map (coerceTag tag))).map (fun i => (i, col))
              else []) = _
            rw [if_pos (Or.inr h2)]
          rw [hfa]
          simp only [check2, hf]
          rw [if_neg h1, if_pos h2, hmap]
          rw [congrArg Prod.snd hcongr]
          rw [ih df hkrest]
        · have hor : ¬ (tag = "datetime" ∨ tag = "float") := fun h => h.elim h1 h2
          have hfa : typeErrLocs df (col, tag) = [] := by
            unfold typeErrLocs
            rw [hf]
            show (if tag = "datetime" ∨ tag = "float" then
                (nullIndices (vs.map (coerceTag tag))).map (fun i => (i, col))
              else []) = []
            rw [if_neg hor]
          rw [hfa, List.nil_append]
          by_cases h3 : tag = "str"
          · have hcongr := check2_congr (df.setCol col (vs.map coerceStr)) df rest
              (setCol_getCol_rest df col _ rest hnot)
            simp only [check2, hf]
            rw [if_neg h1, if_neg h2, if_pos h3]
            rw [congrArg Prod.snd hcongr]
            exact ih df hkrest
          · simp only [check2, hf]
            rw [if_neg h1, if_neg h2, if_neg h3]
            exact ih df hkrest

theorem nodup_keys_eq {α : Type} {cols : List (String × α)}
    (hk : (cols.map (fun p => p.1)).Nodup) {p q : String × α}
    (hp : p ∈ cols) (hq : q ∈ cols) (h : p.1 = q.1) : p = q := by
  induction cols with
  | nil => cases hp
  | cons a rest ih =>
    rw [List.map_cons] at hk
    have hnot : a.1 ∉ rest.map (fun p => p.1) := (List.nodup_cons.mp hk).1
    have hkrest := (List.nodup_cons.mp hk).2
    cases List.mem_cons.mp hp with
    | inl hpa =>
      cases List.mem_cons.mp hq with
      | inl hqa => rw [hpa, hqa]
      | inr hqr =>
        exact absurd (List.mem_map.mpr ⟨q, hqr, by rw [← h, hpa]⟩) hnot
    | inr hpr =>
      cases List.mem_cons.mp hq with
      | inl hqa =>
        exact absurd (List.mem_map.mpr ⟨p, hpr, by rw [h, hqa]⟩) hnot
      | inr hqr => exact ih hkrest hpr hqr

theorem check2_fixed : ∀ (cols : List (String × String)) (df : DataFrame),
    df.names.Nodup →
    (∀ p ∈ cols, ∀ vs, df.getCol p.1 = some vs →
      vs.map (coerceTag p.2) = vs ∧
      ((p.2 = "datetime" ∨ p.2 = "float") → nullIndices vs = [])) →
    check2 df cols = (df, [], []) := by
  intro cols
  induction cols with
  | nil => intro df _ _; rfl
  | cons p rest ih =>
    intro df hn hfix
    obtain ⟨col, tag⟩ := p
    have hfixrest : ∀ p ∈ rest, ∀ vs, df.getCol p.1 = some vs →
        vs.map (coerceTag p.2) = vs ∧
        ((p.2 = "datetime" ∨ p.2 = "float") → nullIndices vs = []) :=
      fun p hp => hfix p (List.mem_cons_of_mem _ hp)
    cases hf : df.getCol col with
    | none =>
      simp only [check2, hf]
      exact ih df hn hfixrest
    | some vs =>
      have hv := hfix (col, tag) (List.mem_cons_self _ _) vs hf
      by_cases h1 : tag = "datetime"
      · have hmap : vs.map coerceDatetime = vs.map (coerceTag tag) := by
          rw [h1]
          exact (List.map_congr_left (fun v _ => coerceTag_datetime v)).symm
        have hvs2 : vs.map coerceDatetime = vs := by rw [hmap]; exact hv.1
        have hinv : nullIndices vs = [] := hv.2 (Or.inl h1)
        simp only [check2, hf]
        rw [if_pos h1, hvs2, DataFrame.setCol_self df col vs hn hf, hinv,
          ih df hn hfixrest]
        rfl
      · by_cases h2 : tag = "float"
        · have hmap : vs.map coerceFloat = vs.map (coerceTag tag) := by
            rw [h2]
            exact (List.map_congr_left (fun v _ => coerceTag_float v)).symm
          have hvs2 : vs.map coerceFloat = vs := by rw [hmap]; exact hv.1
          have hinv : nullIndices vs = [] := hv.2 (Or.inr h2)
          simp only [check2, hf]
          rw [if_neg h1, if_pos h2, hvs2, DataFrame.setCol_self df col vs hn hf, hinv,
            ih df hn hfixrest]
          rfl
        · by_cases h3 : tag = "str"
          · have hmap : vs.map coerceStr = vs.map (coerceTag tag) := by
              rw [h3]
              exact (List.map_congr_left (fun v _ => coerceTag_str v)).symm
            have hvs2 : vs.map coerceStr = vs := by rw [hmap]; exact hv.1
            simp only [check2, hf]
            rw [if_neg h1, if_neg h2, if_pos h3, hvs2,
              DataFrame.setCol_self df col vs hn hf]
            exact ih df hn hfixrest
          · simp only [check2, hf]
            rw [if_neg h1, if_neg h2, if_neg h3]
            exact ih df hn hfixrest

/-! ### Lemmas about check 3 (missing values) -/

theorem check3_all_ok : ∀ (required : List String) (df : DataFrame),
    (∀ c ∈ required, ∃ vs, df.getCol c = some vs ∧ nullIndices vs = []) →
    check3 df required = .ok ([], []) := by
  intro required
  induction required with
  | nil => intro df _; rfl
  | cons col rest ih =>
    intro df h
    rcases h col (List.mem_cons_self _ _) with ⟨vs, hf, hinv⟩
    simp only [check3, hf]
    rw [ih df (fun c hc => h c (List.mem_cons_of_mem _ hc))]
    simp [hinv]

theorem check3_ok_of_present : ∀ (required : List String) (df : DataFrame),
    (∀ c ∈ required, df.hasCol c = true) →
    ∃ mv l, check3 df required = .ok (mv, l) := by
  intro required
  induction required with
  | nil => intro df _; exact ⟨[], [], rfl⟩
  | cons col rest ih =>
    intro df h
    rcases (df.hasCol_iff_getCol col).mp (h col (List.mem_cons_self _ _)) with ⟨vs, hf⟩
    rcases ih df (fun c hc => h c (List.mem_cons_of_mem _ hc)) with ⟨mv, l, hrest⟩
    simp only [check3, hf, hrest]
    by_cases hinv : (nullIndices vs).isEmpty = true
    · exact ⟨mv, l, by rw [if_pos hinv]⟩
    · exact ⟨(col, nullIndices vs) :: mv.filter (fun p => ¬ (p.1 = col)),
        (nullIndices vs).map (fun i => (i, col)) ++ l, by rw [if_neg hinv]⟩

theorem check3_nil_inv : ∀ (required : List String) (df : DataFrame)
    (l : List (ℕ × String)), check3 df required = .ok ([], l) →
    (∀ c ∈ required, ∃ vs, df.getCol c = some vs ∧ nullIndices vs = []) ∧ l = [] := by
  intro required
  induction required with
  | nil =>
    intro df l h
    have h2 : (Except.ok (([], []) : List (String × List ℕ) × List (ℕ × String)) :
        Except String (List (String × List ℕ) × List (ℕ × String))) = .ok ([], l) := h
    injection h2 with h1
    exact ⟨fun c hc => absurd hc (List.not_mem_nil c), (congrArg Prod.snd h1).symm⟩
  | cons col rest ih =>
    intro df l h
    cases hf : df.getCol col with
    | none =>
      simp only [check3, hf] at h
      exact Except.noConfusion h
    | some vs =>
      cases hrest : check3 df rest with
      | error e =>
        simp only [check3, hf, hrest] at h
        exact Except.noConfusion h
      | ok pr =>
        obtain ⟨mvr, lr⟩ := pr
        simp only [check3, hf, hrest] at h
        by_cases hinv : (nullIndices vs).isEmpty = true
        · rw [if_pos hinv] at h
          injection h with h1
          have hmv : mvr = [] := congrArg Prod.fst h1
          have hlr : lr = l := congrArg Prod.snd h1
          rcases ih df l (by rw [hrest, hmv, hlr]) with ⟨hall, hl⟩
          refine ⟨?_, hl⟩
          intro c hc
          cases List.mem_cons.mp hc with
          | inl hceq =>
            subst hceq
            exact ⟨vs, hf, List.isEmpty_iff.mp hinv⟩
          | inr hcr => exact hall c hcr
        · rw [if_neg hinv] at h
          injection h with h1
          have hctr : ((col, nullIndices vs) :: mvr.filter (fun p => ¬ (p.1 = col))) = [] :=
            congrArg Prod.fst h1
          cases hctr

theorem check3_locs_mem : ∀ (required : List String) (df : DataFrame)
    (mv : List (String × List ℕ)) (l : List (ℕ × String)),
    check3 df required = .ok (mv, l) →
    ∀ i c0, (i, c0) ∈ l →
      c0 ∈ required ∧ ∃ vs, df.getCol c0 = some vs ∧ i ∈ nullIndices vs := by
  intro required
  induction required with
  | nil =>
    intro df mv l h i c0 hm
    have h2 : (Except.ok (([], []) : List (String × List ℕ) × List (ℕ × String)) :
        Except String (List (String × List ℕ) × List (ℕ × String))) = .ok (mv, l) := h
    injection h2 with h1
    have hl : l = [] := (congrArg Prod.snd h1).symm
    rw [hl] at hm
    cases hm
  | cons col rest ih =>
    intro df mv l h i c0 hm
    cases hf : df.getCol col with
    | none =>
      simp only [check3, hf] at h
      exact Except.noConfusion h
    | some vs =>
      cases hrest : check3 df rest with
      | error e =>
        simp only [check3, hf, hrest] at h
        exact Except.noConfusion h
      | ok pr =>
        obtain ⟨mvr, lr⟩ := pr
        simp only [check3, hf, hrest] at h
        by_cases hinv : (nullIndices vs).isEmpty = true
        · rw [if_pos hinv] at h
          injection h with h1
          have hl : lr = l := congrArg Prod.snd h1
          rw [← hl] at hm
          rcases ih df mvr lr hrest i c0 hm with ⟨hc, hrest2⟩
          exact ⟨List.mem_cons_of_mem _ hc, hrest2⟩
        · rw [if_neg hinv] at h
          injection h with h1
          have hl : ((nullIndices vs).map (fun i => (i, col)) ++ lr) = l :=
            congrArg Prod.snd h1
          rw [← hl] at hm
          rcases List.mem_append.mp hm with hmm | hmm
          · rcases List.mem_map.mp hmm with ⟨j, hj, hji⟩
            have hcol : c0 = col := by
              have h3 := congrArg Prod.snd hji
              simpa using h3.symm
            have hii : i = j := by
              have h3 := congrArg Prod.fst hji
              simpa using h3.symm
            subst hcol
            subst hii
            exact ⟨List.mem_cons_self _ _, ⟨vs, hf, hj⟩⟩
          · rcases ih df mvr lr hrest i c0 hmm with ⟨hc, hrest2⟩
            exact ⟨List.mem_cons_of_mem _ hc, hrest2⟩

theorem check3_mv_mem : ∀ (required : List String) (df : DataFrame)
    (mv : List (String × List ℕ)) (l : List (ℕ × String)),
    check3 df required = .ok (mv, l) →
    ∀ e ∈ mv, ∃ vs, df.getCol e.1 = some vs ∧ ¬ (nullIndices vs = []) := by
  intro required
  induction required with
  | nil =>
    intro df mv l h e he
    have h2 : (Except.ok (([], []) : List (String × List ℕ) × List (ℕ × String)) :
        Except String (List (String × List ℕ) × List (ℕ × String))) = .ok (mv, l) := h
    injection h2 with h1
    have hl : mv = [] := (congrArg Prod.fst h1).symm
    rw [hl] at he
    cases he
  | cons col rest ih =>
    intro df mv l h e he
    cases hf : df.getCol col with
    | none =>
      simp only [check3, hf] at h
      exact Except.noConfusion h
    | some vs =>
      cases hrest : check3 df rest with
      | error e2 =>
        simp only [check3, hf, hrest] at h
        exact Except.noConfusion h
      | ok pr =>
        obtain ⟨mvr, lr⟩ := pr
        simp only [check3, hf, hrest] at h
        by_cases hinv : (nullIndices vs).isEmpty = true
        · rw [if_pos hinv] at h
          injection h with h1
          have hl : mvr = mv := congrArg Prod.fst h1
          rw [← hl] at he
          exact ih df mvr lr hrest e he
        · rw [if_neg hinv] at h
          injection h with h1
          have hl : ((col, nullIndices vs) :: mvr.filter (fun p => ¬ (p.1 = col))) = mv :=
            congrArg Prod.fst h1
          rw [← hl] at he
          cases List.mem_cons.mp he with
          | inl hecol =>
            refine ⟨vs, ?_, fun hnil => hinv (by rw [hnil]; rfl)⟩
            rw [hecol]
            exact hf
          | inr hefil =>
            exact ih df mvr lr hrest e (List.mem_of_mem_filter hefil)

/-! ### Well-formedness propagation and check 4 lemmas -/

theorem DataFrame.getCol_mem (df : DataFrame) (c : String) (vs : List Value)
    (h : df.getCol c = some vs) : (c, vs) ∈ df.cols := by
  unfold DataFrame.getCol at h
  cases hf : df.cols.find? (fun p => p.1 = c) with
  | none => rw [hf] at h; cases h
  | some pr =>
    rw [hf] at h
    have hmem := List.mem_of_find?_eq_some hf
    have hpc : pr.1 = c := by simpa using List.find?_some hf
    have hpv : pr.2 = vs := by simpa using h
    rw [← hpc, ← hpv]
    exact hmem

theorem DataFrame.getCol_eq_of_mem_nodup (df : DataFrame)
    (hn : df.names.Nodup) {p : String × List Value} (hp : p ∈ df.cols) :
    df.getCol p.1 = some p.2 := by
  obtain ⟨l⟩ := df
  unfold DataFrame.names at hn
  show (l.find? (fun q => q.1 = p.1)).map (fun q => q.2) = some p.2
  induction l with
  | nil => cases hp
  | cons a rest ih =>
    rw [List.map_cons] at hn
    cases List.mem_cons.mp hp with
    | inl hpa =>
      rw [hpa]
      rw [List.find?_cons_of_pos _ (by simp)]
      rfl
    | inr hpr =>
      have hne : ¬ (a.1 = p.1) := by
        intro h
        exact (List.nodup_cons.mp hn).1 (h ▸ List.mem_map.mpr ⟨p, hpr, rfl⟩)
      rw [List.find?_cons_of_neg _ (by simpa using hne)]
      exact ih (List.nodup_cons.mp hn).2 hpr

theorem DataFrame.nrows_stable (df : DataFrame) (n : ℕ)
    (h : ∀ p ∈ df.cols, p.2.length = n) (hne : ¬ (df.cols = [])) : df.nrows = n := by
  obtain ⟨l⟩ := df
  cases l with
  | nil => exact absurd rfl hne
  | cons p rest => exact h p (List.mem_cons_self _ _)

theorem cols_len_setCol (df : DataFrame) (c : String) (vs : List Value) (n : ℕ)
    (h : ∀ p ∈ df.cols, p.2.length = n) (hvs : vs.length = n) :
    ∀ p ∈ (df.setCol c vs).cols, p.2.length = n := by
  unfold DataFrame.setCol
  by_cases hc : df.hasCol c
  · rw [if_pos hc]
    intro p hp
    rcases List.mem_map.mp hp with ⟨q, hq, hqp⟩
    by_cases hqc : q.1 = c
    · rw [if_pos hqc] at hqp
      rw [← hqp]
      exact hvs
    · rw [if_neg hqc] at hqp
      rw [← hqp]
      exact h q hq
  · rw [if_neg hc]
    intro p hp
    rcases List.mem_append.mp hp with hp1 | hp1
    · exact h p hp1
    · rcases List.mem_singleton.mp hp1 with hpv
      rw [hpv]
      exact hvs

theorem cols_len_dropCol (df : DataFrame) (c : String) (n : ℕ)
    (h : ∀ p ∈ df.cols, p.2.length = n) :
    ∀ p ∈ (df.dropCol c).cols, p.2.length = n :=
  fun p hp => h p (List.mem_of_mem_filter hp)

theorem check2_WF (cols : List (String × String)) (df : DataFrame)
    (hk : (cols.map (fun p => p.1)).Nodup) (hwf : df.WF) :
    (check2 df cols).1.WF ∧ (check2 df cols).1.nrows = df.nrows := by
  obtain ⟨hn, hlen⟩ := hwf
  have hnames := check2_names df cols
  have hn2 : (check2 df cols).1.names.Nodup := by rw [hnames]; exact hn
  have hA : ∀ p ∈ (check2 df cols).1.cols, p.2.length = df.nrows := by
    intro p hp
    have hget := (check2 df cols).1.getCol_eq_of_mem_nodup hn2 hp
    rw [check2_getCol_spec cols df hk p.1] at hget
    cases hfind : cols.find? (fun q => q.1 = p.1) with
    | some q =>
      rw [hfind] at hget
      cases hdf : df.getCol p.1 with
      | none => rw [hdf] at hget; cases hget
      | some vs =>
        rw [hdf] at hget
        have : (vs.map (coerceTag q.2)) = p.2 := by simpa using hget
        rw [← this, List.length_map]
        exact hlen (p.1, vs) (df.getCol_mem p.1 vs hdf)
    | none =>
      rw [hfind] at hget
      exact hlen (p.1, p.2) (df.getCol_mem p.1 p.2 hget)
  by_cases hnil : df.cols = []
  · have hnil2 : (check2 df cols).1.cols = [] := by
      have h1 : (check2 df cols).1.names = [] := by
        rw [hnames]
        unfold DataFrame.names
        rw [hnil]
        rfl
      unfold DataFrame.names at h1
      exact List.map_eq_nil_iff.mp h1
    constructor
    · constructor
      · exact hn2
      · intro p hp
        rw [hnil2] at hp
        cases hp
    · unfold DataFrame.nrows
      rw [hnil, hnil2]
  · have hnil2 : ¬ ((check2 df cols).1.cols = []) := by
      intro h0
      apply hnil
      have h1 : (check2 df cols).1.names = df.names := hnames
      unfold DataFrame.names at h1
      rw [h0] at h1
      exact List.map_eq_nil_iff.mp h1.symm
    have hnr := (check2 df cols).1.nrows_stable df.nrows hA hnil2
    refine ⟨⟨hn2, ?_⟩, hnr⟩
    intro p hp
    rw [hnr]
    exact hA p hp

theorem getCols_ok : ∀ (l : List String) (df : DataFrame),
    (∀ c ∈ l, df.hasCol c = true) →
    getCols df l = .ok (l.map (fun c => (df.getCol c).getD [])) := by
  intro l
  induction l with
  | nil => intro df _; rfl
  | cons c rest ih =>
    intro df h
    rcases (df.hasCol_iff_getCol c).mp (h c (List.mem_cons_self _ _)) with ⟨vs, hf⟩
    simp only [getCols, hf, ih df (fun c hc => h c (List.mem_cons_of_mem _ hc))]
    rw [List.map_cons, hf]
    rfl

theorem getCols_error : ∀ (l : List String) (df : DataFrame) (c : String),
    c ∈ l → df.hasCol c = false → ∃ e, getCols df l = .error e := by
  intro l
  induction l with
  | nil =>
    intro df c hc _
    cases hc
  | cons c0 rest ih =>
    intro df c hc habs
    cases hf : df.getCol c0 with
    | none => exact ⟨"KeyError: " ++ c0, by simp only [getCols, hf]⟩
    | some vs =>
      cases List.mem_cons.mp hc with
      | inl hcc =>
        rw [hcc] at habs
        unfold DataFrame.hasCol at habs
        rw [hf] at habs
        cases habs
      | inr hcr =>
        rcases ih df c hcr habs with ⟨e, he⟩
        refine ⟨e, ?_⟩
        simp only [getCols, hf, he]

theorem getCols_congr : ∀ (l : List String) (df dg : DataFrame),
    (∀ c ∈ l, df.getCol c = dg.getCol c) → getCols df l = getCols dg l := by
  intro l
  induction l with
  | nil => intro df dg _; rfl
  | cons c rest ih =>
    intro df dg h
    have hc := h c (List.mem_cons_self _ _)
    have hrest := ih df dg (fun c hc => h c (List.mem_cons_of_mem _ hc))
    simp only [getCols, hc, hrest]

theorem getCols_ok_present : ∀ (l : List String) (df : DataFrame)
    (cvs : List (List Value)), getCols df l = .ok cvs →
    ∀ c ∈ l, df.hasCol c = true := by
  intro l
  induction l with
  | nil =>
    intro df cvs _ c hc
    cases hc
  | cons c0 rest ih =>
    intro df cvs h c hc
    cases hf : df.getCol c0 with
    | none =>
      simp only [getCols, hf] at h
      exact Except.noConfusion h
    | some vs =>
      cases hrest : getCols df rest with
      | error e =>
        simp only [getCols, hf, hrest] at h
        exact Except.noConfusion h
      | ok cr =>
        cases List.mem_cons.mp hc with
        | inl hcc =>
          rw [hcc]
          unfold DataFrame.hasCol
          rw [hf]
          rfl
        | inr hcr => exact ih df cr hrest c hcr

theorem rowSumE_ok : ∀ (cells : List Value),
    (∀ v ∈ cells, (v.isFloat || v.isNull) = true) →
    rowSumE cells = .ok ((cells.map floatPart).sum) := by
  intro cells
  induction cells with
  | nil => intro _; rfl
  | cons v r ih =>
    intro h
    have hv := h v (List.mem_cons_self _ _)
    have hr := ih (fun w hw => h w (List.mem_cons_of_mem _ hw))
    cases v with
    | vFloat q =>
      simp only [rowSumE, hr]
      rw [List.map_cons, List.sum_cons]
      rfl
    | vNull =>
      simp only [rowSumE, hr]
      rw [List.map_cons, List.sum_cons]
      show Except.ok ((r.map floatPart).sum) =
        Except.ok ((floatPart Value.vNull) + (r.map floatPart).sum)
      rw [show floatPart Value.vNull = 0 from rfl, zero_add]
    | vStr s => simp [Value.isFloat, Value.isNull] at hv
    | vDate d => simp [Value.isFloat, Value.isNull] at hv

theorem sumRows_ok : ∀ (idx : List ℕ) (cvs : List (List Value)) (g : ℕ → ℚ),
    (∀ i ∈ idx, rowSumE (cvs.map (fun vs => vs.getD i Value.vNull)) = .ok (g i)) →
    sumRows cvs idx = .ok (idx.map g) := by
  intro idx
  induction idx with
  | nil => intro cvs g _; rfl
  | cons i rest ih =>
    intro cvs g h
    have hi := h i (List.mem_cons_self _ _)
    have hr := ih cvs g (fun j hj => h j (List.mem_cons_of_mem _ hj))
    simp only [sumRows, hi, hr]
    rw [List.map_cons]

theorem sumRows_length : ∀ (idx : List ℕ) (cvs : List (List Value)) (sums : List ℚ),
    sumRows cvs idx = .ok sums → sums.length = idx.length := by
  intro idx
  induction idx with
  | nil =>
    intro cvs sums h
    have h2 : (Except.ok ([] : List ℚ) : Except String (List ℚ)) = .ok sums := h
    injection h2 with h1
    rw [← h1]
    rfl
  | cons i rest ih =>
    intro cvs sums h
    cases hs : rowSumE (cvs.map (fun vs => vs.getD i Value.vNull)) with
    | error e =>
      simp only [sumRows, hs] at h
      exact Except.noConfusion h
    | ok q =>
      cases hr : sumRows cvs rest with
      | error e =>
        simp only [sumRows, hs, hr] at h
        exact Except.noConfusion h
      | ok qs =>
        simp only [sumRows, hs, hr] at h
        injection h with h1
        rw [← h1, List.length_cons, List.length_cons, ih cvs qs hr]

theorem all_getD_float_null (vs : List Value) (i : ℕ)
    (h : vs.all (fun v => v.isFloat || v.isNull) = true) :
    ((vs.getD i Value.vNull).isFloat || (vs.getD i Value.vNull).isNull) = true := by
  rw [List.getD_eq_getElem?_getD]
  cases hel : vs[i]? with
  | none => rfl
  | some v =>
    rcases List.getElem?_eq_some.mp hel with ⟨hi, hv⟩
    have hmem : v ∈ vs := hv ▸ List.getElem_mem hi
    simpa using List.all_eq_true.mp h v hmem

theorem check4_empty (df : DataFrame) (numeric : List String) (h : numeric = []) :
    check4 df numeric = .ok (df, none, []) := by
  subst h
  rfl

theorem check4_spec (df : DataFrame) (numeric : List String) (hne : ¬ (numeric = []))
    (hcells : ∀ c ∈ numeric, df.hasCol c = true ∧
      ((df.getCol c).getD []).all (fun v => v.isFloat || v.isNull) = true) :
    check4 df numeric = .ok
      ((df.setCol "checksum"
          (((List.range df.nrows).map (fun i => rowTotal df numeric i)).map Value.vFloat)).dropCol
        "checksum",
       some (if ((List.range df.nrows).filter
              (fun i => rowTotal df numeric i ≤ 0)).isEmpty then
           (true, "All checksums valid")
         else
           (false, "Invalid checksums in " ++
             toString ((List.range df.nrows).filter
               (fun i => rowTotal df numeric i ≤ 0)).length ++ " rows")),
       ((List.range df.nrows).filter (fun i => rowTotal df numeric i ≤ 0)).flatMap
         (fun i => numeric.map (fun c => (i, c)))) := by
  have hne' : numeric.isEmpty = false := by
    cases numeric with
    | nil => exact absurd rfl hne
    | cons a l => rfl
  have hget := getCols_ok numeric df (fun c hc => (hcells c hc).1)
  have hrow : ∀ i ∈ List.range df.nrows,
      rowSumE ((numeric.map (fun c => (df.getCol c).getD [])).map
        (fun vs => vs.getD i Value.vNull)) = .ok (rowTotal df numeric i) := by
    intro i _
    have hcells2 : ∀ v ∈ (numeric.map (fun c => (df.getCol c).getD [])).map
        (fun vs => vs.getD i Value.vNull), (v.isFloat || v.isNull) = true := by
      intro v hv
      rcases List.mem_map.mp hv with ⟨vs0, hvs0, hvv⟩
      rcases List.mem_map.mp hvs0 with ⟨c, hc, hcc⟩
      rw [← hvv, ← hcc]
      exact all_getD_float_null _ i (hcells c hc).2
    rw [rowSumE_ok _ hcells2]
    congr 1
    rw [List.map_map, List.map_map]
    rfl
  have hsum := sumRows_ok (List.range df.nrows)
    (numeric.map (fun c => (df.getCol c).getD [])) (fun i => rowTotal df numeric i) hrow
  have hgetD : ∀ i ∈ List.range df.nrows,
      ((List.range df.nrows).map (fun i => rowTotal df numeric i)).getD i 0 =
        rowTotal df numeric i := by
    intro i hi
    rw [List.getD_eq_getElem?_getD, List.getElem?_map,
      List.getElem?_range (List.mem_range.mp hi)]
    rfl
  have hfil : (List.range df.nrows).filter
      (fun i => ((List.range df.nrows).map (fun i => rowTotal df numeric i)).getD i 0 ≤ 0) =
      (List.range df.nrows).filter (fun i => rowTotal df numeric i ≤ 0) := by
    apply List.filter_congr
    intro i hi
    rw [hgetD i hi]
  simp only [check4, hne', Bool.false_eq_true, if_false, hget, hsum, hfil]

theorem check4_ok_inv (df : DataFrame) (numeric : List String)
    (df4 : DataFrame) (c4 : Option (Bool × String)) (l4 : List (ℕ × String))
    (hne : ¬ (numeric = [])) (h : check4 df numeric = .ok (df4, c4, l4)) :
    ∃ cvs sums, getCols df numeric = .ok cvs ∧
      sumRows cvs (List.range df.nrows) = .ok sums ∧
      df4 = (df.setCol "checksum" (sums.map Value.vFloat)).dropCol "checksum" ∧
      c4 = some (if ((List.range df.nrows).filter
            (fun i => sums.getD i 0 ≤ 0)).isEmpty then (true, "All checksums valid")
        else (false, "Invalid checksums in " ++
          toString ((List.range df.nrows).filter
            (fun i => sums.getD i 0 ≤ 0)).length ++ " rows")) ∧
      l4 = ((List.range df.nrows).filter (fun i => sums.getD i 0 ≤ 0)).flatMap
        (fun i => numeric.map (fun c => (i, c))) := by
  have hne' : numeric.isEmpty = false := by
    cases numeric with
    | nil => exact absurd rfl hne
    | cons a l => rfl
  cases hget : getCols df numeric with
  | error e =>
    simp only [check4, hne', Bool.false_eq_true, if_false, hget] at h
    exact Except.noConfusion h
  | ok cvs =>
    cases hsum : sumRows cvs (List.range df.nrows) with
    | error e =>
      simp only [check4, hne', Bool.false_eq_true, if_false, hget, hsum] at h
      exact Except.noConfusion h
    | ok sums =>
      simp only [check4, hne', Bool.false_eq_true, if_false, hget, hsum] at h
      injection h with h1
      refine ⟨cvs, sums, rfl, hsum, ?_, ?_, ?_⟩
      · exact (congrArg Prod.fst h1).symm
      · exact (congrArg (fun t => t.2.1) h1).symm
      · exact (congrArg (fun t => t.2.2) h1).symm

/-! ### Destructuring of validate_data -/

theorem validate_build (df : DataFrame) (cfg : Config)
    (df2 df4 : DataFrame) (te mv : List (String × List ℕ))
    (l2 l3 l4 : List (ℕ × String)) (c4 : Option (Bool × String))
    (h2 : check2 df cfg.columns = (df2, te, l2))
    (h3 : check3 df2 cfg.required_cols = .ok (mv, l3))
    (h4 : check4 df2 cfg.numeric_cols = .ok (df4, c4, l4)) :
    validate_data df cfg = .ok
      ⟨df4,
       assembleResults (check1 df cfg) (dataTypesEntry te) (missingValuesEntry mv) c4,
       failedMessages (assembleResults (check1 df cfg) (dataTypesEntry te)
         (missingValuesEntry mv) c4),
       l2 ++ l3 ++ l4⟩ := by
  simp only [validate_data, h2, h3, h4]

theorem validate_error_check3 (df : DataFrame) (cfg : Config)
    (df2 : DataFrame) (te : List (String × List ℕ)) (l2 : List (ℕ × String)) (e : String)
    (h2 : check2 df cfg.columns = (df2, te, l2))
    (h3 : check3 df2 cfg.required_cols = .error e) :
    validate_data df cfg = .error e := by
  simp only [validate_data, h2, h3]

theorem validate_error_check4 (df : DataFrame) (cfg : Config)
    (df2 : DataFrame) (te mv : List (String × List ℕ))
    (l2 l3 : List (ℕ × String)) (e : String)
    (h2 : check2 df cfg.columns = (df2, te, l2))
    (h3 : check3 df2 cfg.required_cols = .ok (mv, l3))
    (h4 : check4 df2 cfg.numeric_cols = .error e) :
    validate_data df cfg = .error e := by
  simp only [validate_data, h2, h3, h4]

theorem validate_ok_inv (df : DataFrame) (cfg : Config) (r : ValidationResult)
    (h : validate_data df cfg = .ok r) :
    ∃ df2 te l2 mv l3 df4 c4 l4,
      check2 df cfg.columns = (df2, te, l2) ∧
      check3 df2 cfg.required_cols = .ok (mv, l3) ∧
      check4 df2 cfg.numeric_cols = .ok (df4, c4, l4) ∧
      r = ⟨df4,
        assembleResults (check1 df cfg) (dataTypesEntry te) (missingValuesEntry mv) c4,
        failedMessages (assembleResults (check1 df cfg) (dataTypesEntry te)
          (missingValuesEntry mv) c4),
        l2 ++ l3 ++ l4⟩ := by
  cases h2 : check2 df cfg.columns with
  | mk df2 rest2 =>
    obtain ⟨te, l2⟩ := rest2
    cases h3 : check3 df2 cfg.required_cols with
    | error e =>
      rw [validate_error_check3 df cfg df2 te l2 e h2 h3] at h
      exact Except.noConfusion h
    | ok pr3 =>
      obtain ⟨mv, l3⟩ := pr3
      cases h4 : check4 df2 cfg.numeric_cols with
      | error e =>
        rw [validate_error_check4 df cfg df2 te mv l2 l3 e h2 h3 h4] at h
        exact Except.noConfusion h
      | ok pr4 =>
        obtain ⟨df4, c4, l4⟩ := pr4
        rw [validate_build df cfg df2 df4 te mv l2 l3 l4 c4 h2 h3 h4] at h
        injection h with h1
        exact ⟨df2, te, l2, mv, l3, df4, c4, l4, rfl, h3, h4, h1.symm⟩

/-! ### Small lemmas about entries, names and messages -/

theorem failedMessages_eq_nil_iff (cr : List (String × (Bool × String))) :
    failedMessages cr = [] ↔ ∀ p ∈ cr, p.2.1 = true := by
  unfold failedMessages
  rw [List.map_eq_nil_iff, List.filter_eq_nil_iff]
  constructor
  · intro h p hp
    have := h p hp
    simpa using this
  · intro h p hp
    simp [h p hp]

theorem check1_fst_true_iff (df : DataFrame) (cfg : Config) :
    (check1 df cfg).1 = true ↔ missingCols df cfg = [] := by
  unfold check1
  by_cases h : (missingCols df cfg).isEmpty = true
  · rw [if_pos h]
    simpa using List.isEmpty_iff.mp h
  · rw [if_neg h]
    constructor
    · intro hf
      cases hf
    · intro hnil
      exact absurd (by rw [hnil]; rfl) h

theorem check1_pass_eq (df : DataFrame) (cfg : Config)
    (h : missingCols df cfg = []) :
    check1 df cfg = (true, "All required columns present in sheet '" ++
      cfg.sheet_name ++ "'") := by
  unfold check1
  rw [if_pos (by rw [h]; rfl)]

theorem dataTypesEntry_fst_true_iff (te : List (String × List ℕ)) :
    (dataTypesEntry te).1 = true ↔ te = [] := by
  unfold dataTypesEntry
  by_cases h : te.isEmpty = true
  · rw [if_pos h]
    simpa using List.isEmpty_iff.mp h
  · rw [if_neg h]
    constructor
    · intro hf
      cases hf
    · intro hnil
      exact absurd (by rw [hnil]; rfl) h

theorem missingValuesEntry_fst_true_iff (mv : List (String × List ℕ)) :
    (missingValuesEntry mv).1 = true ↔ mv = [] := by
  unfold missingValuesEntry
  by_cases h : mv.isEmpty = true
  · rw [if_pos h]
    simpa using List.isEmpty_iff.mp h
  · rw [if_neg h]
    constructor
    · intro hf
      cases hf
    · intro hnil
      exact absurd (by rw [hnil]; rfl) h

theorem mem_assembleResults_c1 (c1 c2 c3 : Bool × String) (c4 : Option (Bool × String)) :
    ("Columns Check", c1) ∈ assembleResults c1 c2 c3 c4 := by
  unfold assembleResults
  exact List.mem_append_left _ (List.mem_cons_self _ _)

theorem mem_assembleResults_c2 (c1 c2 c3 : Bool × String) (c4 : Option (Bool × String)) :
    ("Data Types Check", c2) ∈ assembleResults c1 c2 c3 c4 := by
  unfold assembleResults
  exact List.mem_append_left _ (List.mem_cons_of_mem _ (List.mem_cons_self _ _))

theorem mem_assembleResults_c3 (c1 c2 c3 : Bool × String) (c4 : Option (Bool × String)) :
    ("Missing Values Check", c3) ∈ assembleResults c1 c2 c3 c4 := by
  unfold assembleResults
  exact List.mem_append_left _
    (List.mem_cons_of_mem _ (List.mem_cons_of_mem _ (List.mem_cons_self _ _)))

theorem mem_assembleResults_c4 (c1 c2 c3 x : Bool × String) :
    ("Checksum Check", x) ∈ assembleResults c1 c2 c3 (some x) := by
  unfold assembleResults
  exact List.mem_append_right _ (List.mem_cons_self _ _)

theorem DataFrame.hasCol_eq_of_names (df dg : DataFrame) (h : df.names = dg.names)
    (c : String) : df.hasCol c = dg.hasCol c := by
  cases hg : dg.hasCol c with
  | true =>
    have := (dg.hasCol_iff_mem_names c).mp hg
    exact (df.hasCol_iff_mem_names c).mpr (by rw [h]; exact this)
  | false =>
    cases hf : df.hasCol c with
    | false => rfl
    | true =>
      have := (df.hasCol_iff_mem_names c).mp hf
      rw [h] at this
      rw [(dg.hasCol_iff_mem_names c).mpr this] at hg
      cases hg
  
theorem missingCols_congr (df dg : DataFrame) (cfg : Config)
    (h : ∀ c ∈ cfg.required_cols, df.hasCol c = dg.hasCol c) :
    missingCols df cfg = missingCols dg cfg := by
  unfold missingCols
  congr 1
  apply List.filter_congr
  intro c hc
  rw [h c hc]

theorem DataFrame.names_setCol_absent (df : DataFrame) (c : String) (vs : List Value)
    (h : df.hasCol c = false) : (df.setCol c vs).names = df.names ++ [c] := by
  unfold DataFrame.setCol
  rw [if_neg (by simp [h])]
  show (df.cols ++ [(c, vs)]).map (fun p => p.1) = _
  rw [List.map_append]
  rfl

theorem DataFrame.nodup_setCol (df : DataFrame) (c : String) (vs : List Value)
    (hn : df.names.Nodup) : (df.setCol c vs).names.Nodup := by
  cases h : df.hasCol c with
  | true => rw [df.names_setCol_of_hasCol c vs h]; exact hn
  | false =>
    rw [df.names_setCol_absent c vs h]
    rw [List.nodup_append]
    refine ⟨hn, List.nodup_singleton c, ?_⟩
    intro x hx
    simp only [List.mem_singleton]
    intro hxc
    rw [hxc] at hx
    exact absurd ((df.hasCol_iff_mem_names c).mpr hx) (by rw [h]; exact Bool.false_ne_true)

theorem DataFrame.names_dropCol (df : DataFrame) (c : String) :
    (df.dropCol c).names = df.names.filter (fun x => ¬ (x = c)) := by
  unfold DataFrame.dropCol DataFrame.names
  show (df.cols.filter (fun p => ¬ (p.1 = c))).map (fun p => p.1) = _
  induction df.cols with
  | nil => rfl
  | cons p rest ih =>
    by_cases hp : p.1 = c
    · rw [List.filter_cons_of_neg (by simpa using hp), List.map_cons,
        List.filter_cons_of_neg (by simpa using hp)]
      exact ih
    · rw [List.filter_cons_of_pos (by simpa using hp), List.map_cons, List.map_cons,
        List.filter_cons_of_pos (by simpa using hp), ih]

theorem DataFrame.cols_ne_nil_of_hasCol (df : DataFrame) (c : String)
    (h : df.hasCol c = true) : ¬ (df.cols = []) := by
  intro hnil
  unfold DataFrame.hasCol DataFrame.getCol at h
  rw [hnil] at h
  cases h

theorem hasCol_check2 (df : DataFrame) (cols : List (String × String)) (c : String) :
    (check2 df cols).1.hasCol c = df.hasCol c :=
  DataFrame.hasCol_eq_of_names _ _ (check2_names df cols) c

theorem check2_empty_frame : ∀ (cols : List (String × String)),
    check2 ⟨[]⟩ cols = (⟨[]⟩, [], []) := by
  intro cols
  induction cols with
  | nil => rfl
  | cons p rest ih =>
    obtain ⟨col, tag⟩ := p
    have hf : (DataFrame.mk []).getCol col = none := rfl
    simp only [check2, hf]
    exact ih

theorem check4_error_of_getCols (df : DataFrame) (numeric : List String) (e : String)
    (hne : ¬ (numeric = [])) (h : getCols df numeric = .error e) :
    check4 df numeric = .error e := by
  have hne' : numeric.isEmpty = false := by
    cases numeric with
    | nil => exact absurd rfl hne
    | cons a l => rfl
  simp only [check4, hne', Bool.false_eq_true, if_false, h]

theorem coerceFloat_float_or_null (v : Value) :
    ((coerceFloat v).isFloat || (coerceFloat v).isNull) = true := by
  cases v with
  | vStr s =>
    cases hp : parseFloatString s with
    | none => simp [coerceFloat, hp, Value.isFloat, Value.isNull]
    | some q => simp [coerceFloat, hp, Value.isFloat, Value.isNull]
  | vFloat q => rfl
  | vDate d => rfl
  | vNull => rfl

/-! ### The claims -/

/-- Claim C1 (counterexample): the claim says checks 2-4 operate only on
required columns that are actually present and that validate still returns
a complete result; but on a table missing the required `date` column the
missing-value check indexes `df[date]` unconditionally, the `KeyError`
escapes, and `validate_data` returns no result at all. -/
theorem C1_counterexample :
    validate_data dfMissing valuationsSheet = Except.error "KeyError: date" := by
  decide

/-- Claim C1 (amended): check 1 tolerates missing columns and check 2 skips
configured columns absent from the table, but checks 3 and 4 index every
required resp. numeric column unconditionally; therefore validate runs all
four checks to completion, without short-circuiting on failures, exactly
when every required and numeric column is present (and numeric columns are
float-tagged); the checks add no columns, only the temporary `checksum`
column is removed. -/
theorem C1_amended_runs_to_completion (df : DataFrame) (cfg : Config)
    (hn : df.names.Nodup) (hk : (cfg.columns.map (fun p => p.1)).Nodup)
    (hreq : ∀ c ∈ cfg.required_cols, df.hasCol c = true)
    (hnum : ∀ c ∈ cfg.numeric_cols, df.hasCol c = true ∧
      cfg.columns.find? (fun p => p.1 = c) = some (c, "float")) :
    ∃ r, validate_data df cfg = .ok r ∧
      r.check_results.map (fun p => p.1) =
        ["Columns Check", "Data Types Check", "Missing Values Check"] ++
          (if cfg.numeric_cols = [] then [] else ["Checksum Check"]) ∧
      r.df.names = (if cfg.numeric_cols = [] then df.names
        else df.names.filter (fun c => ¬ (c = "checksum"))) := by
  cases hc2 : check2 df cfg.columns with
  | mk df2 rest2 =>
    obtain ⟨te, l2⟩ := rest2
    have hnames2 : df2.names = df.names := by
      have h := check2_names df cfg.columns
      rw [hc2] at h
      exact h
    have hpres : ∀ c ∈ cfg.required_cols, df2.hasCol c = true := by
      intro c hc
      have h := hasCol_check2 df cfg.columns c
      rw [hc2] at h
      exact h.trans (hreq c hc)
    rcases check3_ok_of_present cfg.required_cols df2 hpres with ⟨mv, l3, h3⟩
    by_cases hne : cfg.numeric_cols = []
    · have h4 := check4_empty df2 cfg.numeric_cols hne
      refine ⟨_, validate_build df cfg df2 df2 te mv l2 l3 [] none hc2 h3 h4, ?_, ?_⟩
      · rw [if_pos hne]
        rfl
      · rw [if_pos hne]
        exact hnames2
    · have hcells : ∀ c ∈ cfg.numeric_cols, df2.hasCol c = true ∧
          ((df2.getCol c).getD []).all (fun v => v.isFloat || v.isNull) = true := by
        intro c hc
        rcases hnum c hc with ⟨hhas, hfind⟩
        rcases (df.hasCol_iff_getCol c).mp hhas with ⟨vs, hvs⟩
        have h := check2_getCol_spec cfg.columns df hk c
        rw [hc2, hfind, hvs] at h
        have hget : df2.getCol c = some (vs.map (coerceTag "float")) := h
        constructor
        · unfold DataFrame.hasCol
          rw [hget]
          rfl
        · rw [hget]
          show (vs.map (coerceTag "float")).all (fun v => v.isFloat || v.isNull) = true
          rw [List.all_eq_true]
          intro v hv
          rcases List.mem_map.mp hv with ⟨w, _, hw⟩
          rw [← hw, coerceTag_float]
          exact coerceFloat_float_or_null w
      have h4 := check4_spec df2 cfg.numeric_cols hne hcells
      refine ⟨_, validate_build df cfg df2 _ te mv l2 l3 _ _ hc2 h3 h4, ?_, ?_⟩
      · rw [if_neg hne]
        rfl
      · rw [if_neg hne]
        show ((df2.setCol "checksum" _).dropCol "checksum").names = _
        rw [DataFrame.names_dropCol]
        cases hck2 : df2.hasCol "checksum" with
        | true =>
          rw [DataFrame.names_setCol_of_hasCol _ _ _ hck2, hnames2]
        | false =>
          rw [DataFrame.names_setCol_absent _ _ _ hck2, List.filter_append, hnames2]
          have hsing : ([("checksum" : String)].filter (fun x => ¬ (x = "checksum"))) = [] := by
            decide
          rw [hsing, List.append_nil]

/-- Claim C1 (witness): a table whose date is unparseable, whose value is
negative and whose asset is fine fails checks 2, 3 and 4 — yet all four
check entries are produced in one pass. -/
theorem C1_witness :
    (validate_data dfAllFail valuationsSheet).map (fun r => r.check_results.map (fun p => p.1)) =
      Except.ok ["Columns Check", "Data Types Check", "Missing Values Check",
        "Checksum Check"] := by
  rcases C1_amended_runs_to_completion dfAllFail valuationsSheet (by decide) (by decide)
    (by decide) (by decide) with ⟨r, hr, hnames, _⟩
  rw [hr]
  show Except.ok (r.check_results.map (fun p => p.1)) = _
  rw [hnames]
  rfl

/-- Claim C5 (counterexample): on the scenario-B table the returned
error-location collection is a list in which the doubly flagged cell
(0, date) appears twice, not exactly once. -/
theorem C5_counterexample :
    validate_data dfScenB valuationsSheet = Except.ok resScenB ∧
    resScenB.error_locations.count (0, "date") = 2 := by
  constructor
  · decide
  · decide

/-- Claim C5 (amended): validate returns the error locations as the list
concatenation of the per-check ErrorLocations with duplicates retained: for
scenario B check 2 contributes (0, date), check 3 contributes (0, date)
again, check 4 contributes nothing, and the returned list is
[(0, date), (0, date)], whose underlying set (after deduplication, which
the caller performs with set() before display) is exactly (0, date). -/
theorem C5_amended_duplicates_retained :
    validate_data dfScenB valuationsSheet = Except.ok resScenB ∧
    (check2 dfScenB valuationsSheet.columns).2.2 = [(0, "date")] ∧
    check3 (check2 dfScenB valuationsSheet.columns).1 valuationsSheet.required_cols =
      .ok ([("date", [0])], [(0, "date")]) ∧
    resScenB.error_locations = [(0, "date"), (0, "date")] ∧
    resScenB.error_locations.dedup = [(0, "date")] := by
  refine ⟨by decide, by decide, by decide, by decide, by decide⟩

/-- Claim C6 (counterexample): on a zero-column table the run fails with an
uncaught `KeyError` from the missing-value check; the source defines no
`ConfigMismatchError` at all, so the claimed distinct error cannot be
raised. -/
theorem C6_counterexample :
    validate_data DFempty valuationsSheet = Except.error "KeyError: date" := by
  decide

/-- Claim C6 (amended): a genuine configuration fault is not silently
treated as zero missing values / zero checksum failures — a zero-column
table makes check 3 raise `KeyError` on the first required column, and an
absent configured numeric column makes check 4 raise — but the failure is a
plain `KeyError` (surfaced by the caller's generic handler), not a distinct
`ConfigMismatchError`, which the program never defines. -/
theorem C6_amended_keyerror (dummy : DataFrame) :
    (∀ (df : DataFrame) (cfg : Config), df.cols = [] → ¬ (cfg.required_cols = []) →
      validate_data df cfg = .error ("KeyError: " ++ cfg.required_cols.headI)) ∧
    (∀ (df : DataFrame) (cfg : Config) (c : String),
      (∀ c2 ∈ cfg.required_cols, df.hasCol c2 = true) → c ∈ cfg.numeric_cols →
      df.hasCol c = false → ∃ e, validate_data df cfg = .error e) := by
  constructor
  · intro df cfg hdf hreq
    obtain ⟨l⟩ := df
    have hl : l = [] := hdf
    subst hl
    cases hrc : cfg.required_cols with
    | nil => exact absurd hrc hreq
    | cons c rest =>
      show validate_data ⟨[]⟩ cfg = Except.error ("KeyError: " ++ c)
      have h3 : check3 (⟨[]⟩ : DataFrame) cfg.required_cols =
          .error ("KeyError: " ++ c) := by
        rw [hrc]
        have hf : (DataFrame.mk []).getCol c = none := rfl
        simp only [check3, hf]
      exact validate_error_check3 ⟨[]⟩ cfg ⟨[]⟩ [] [] ("KeyError: " ++ c)
        (check2_empty_frame cfg.columns) h3
  · intro df cfg c hreq hcnum habs
    cases hc2 : check2 df cfg.columns with
    | mk df2 rest2 =>
      obtain ⟨te, l2⟩ := rest2
      have hpres : ∀ c2 ∈ cfg.required_cols, df2.hasCol c2 = true := by
        intro c2 hc2m
        have h := hasCol_check2 df cfg.columns c2
        rw [hc2] at h
        exact h.trans (hreq c2 hc2m)
      rcases check3_ok_of_present cfg.required_cols df2 hpres with ⟨mv, l3, h3⟩
      have habs2 : df2.hasCol c = false := by
        have h := hasCol_check2 df cfg.columns c
        rw [hc2] at h
        exact h.trans habs
      have hnum_ne : ¬ (cfg.numeric_cols = []) := by
        intro hnil
        rw [hnil] at hcnum
        cases hcnum
      rcases getCols_error cfg.numeric_cols df2 c hcnum habs2 with ⟨e, he⟩
      exact ⟨e, validate_error_check4 df cfg df2 te mv l2 l3 e hc2 h3
        (check4_error_of_getCols df2 cfg.numeric_cols e hnum_ne he)⟩

/-- Claim C6 (witness): the zero-column table raises KeyError on `date`
with the Valuations config, and a table lacking the configured numeric
column `a` makes the run fail even though no required column is missing. -/
theorem C6_witness :
    validate_data DFempty valuationsSheet =
      Except.error ("KeyError: " ++ valuationsSheet.required_cols.headI) ∧
    isOkE (validate_data DFempty cfgNumOnly) = false := by
  constructor
  · exact (C6_amended_keyerror DFempty).1 DFempty valuationsSheet rfl (by decide)
  · rcases (C6_amended_keyerror DFempty).2 DFempty cfgNumOnly "a"
      (fun c2 hc2 => absurd hc2 (List.not_mem_nil c2)) (by decide) (by decide) with ⟨e, he⟩
    rw [he]
    rfl

/-- Claim C8: for every table missing at least one required column, the
column-presence check fails, and its message names exactly the missing
columns (no others) without repetition; the Python set's iteration order
is modelled canonically as the first-occurrence order of required_cols, so
the message is a deterministic function of the input. -/
theorem C8_presence_check (df : DataFrame) (cfg : Config)
    (h : ∃ c ∈ cfg.required_cols, df.hasCol c = false) :
    (check1 df cfg).1 = false ∧
    (check1 df cfg).2 = "Missing column(s) from sheet '" ++ cfg.sheet_name ++ "': " ++
      String.intercalate ", " (missingCols df cfg) ∧
    (∀ c, c ∈ missingCols df cfg ↔ (c ∈ cfg.required_cols ∧ df.hasCol c = false)) ∧
    (missingCols df cfg).Nodup := by
  have hmem : ∀ c, c ∈ missingCols df cfg ↔
      (c ∈ cfg.required_cols ∧ df.hasCol c = false) := by
    intro c
    unfold missingCols
    rw [List.mem_dedup, List.mem_filter]
    constructor
    · rintro ⟨h1, h2⟩
      refine ⟨h1, ?_⟩
      simpa using h2
    · rintro ⟨h1, h2⟩
      refine ⟨h1, ?_⟩
      simpa using h2
  have hne : ¬ ((missingCols df cfg).isEmpty = true) := by
    rcases h with ⟨c, hc1, hc2⟩
    intro hemp
    have hmm := (hmem c).mpr ⟨hc1, hc2⟩
    rw [List.isEmpty_iff.mp hemp] at hmm
    cases hmm
  refine ⟨?_, ?_, hmem, List.nodup_dedup _⟩
  · unfold check1
    rw [if_neg hne]
  · unfold check1
    rw [if_neg hne]

/-- Claim C8 (witness): the table holding only an asset column fails the
presence check and its message names exactly date and value. -/
theorem C8_witness :
    (check1 dfMissing valuationsSheet).1 = false ∧
    (check1 dfMissing valuationsSheet).2 = "Missing column(s) from sheet '0': date, value" ∧
    ("date" ∈ missingCols dfMissing valuationsSheet ∧
      ¬ ("asset" ∈ missingCols dfMissing valuationsSheet)) := by
  have h := C8_presence_check dfMissing valuationsSheet ⟨"date", by decide, by decide⟩
  refine ⟨h.1, ?_, (h.2.2.1 "date").mpr (by decide), ?_⟩
  · rw [h.2.1]
    rfl
  · intro hmm
    have := (h.2.2.1 "asset").mp hmm
    rw [show dfMissing.hasCol "asset" = true from by decide] at this
    cases this.2

/-- Claim C9: a caller-provided `checksum` column is overwritten by the
per-row sums and then dropped, so when the checksum check runs the
returned coerced table no longer contains a `checksum` column. -/
theorem C9_checksum_column_dropped (df : DataFrame) (cfg : Config) (r : ValidationResult)
    (hnum : ¬ (cfg.numeric_cols = [])) (hck : df.hasCol "checksum" = true)
    (h : validate_data df cfg = .ok r) : r.df.hasCol "checksum" = false := by
  rcases validate_ok_inv df cfg r h with
    ⟨df2, te, l2, mv, l3, df4, c4, l4, h2, h3, h4, hr⟩
  rcases check4_ok_inv df2 cfg.numeric_cols df4 c4 l4 hnum h4 with
    ⟨cvs, sums, _, _, hdf4, _, _⟩
  rw [hr]
  show df4.hasCol "checksum" = false
  rw [hdf4]
  exact DataFrame.hasCol_dropCol_self _ _

/-- Claim C9 (witness): a valid table carrying a checksum column of 7 comes
back without any checksum column. -/
theorem C9_witness :
    validate_data dfCallerChecksum valuationsSheet = Except.ok resCallerChecksum ∧
    resCallerChecksum.df.hasCol "checksum" = false := by
  refine ⟨by decide, ?_⟩
  exact C9_checksum_column_dropped dfCallerChecksum valuationsSheet resCallerChecksum
    (by decide) (by decide) (by decide)

theorem mem_checksumLocs (df : DataFrame) (numeric : List String) (i : ℕ) (c : String) :
    ((i, c) ∈ ((List.range df.nrows).filter
        (fun j => rowTotal df numeric j ≤ 0)).flatMap
        (fun j => numeric.map (fun c2 => (j, c2)))) ↔
      (i < df.nrows ∧ rowTotal df numeric i ≤ 0 ∧ c ∈ numeric) := by
  rw [List.mem_flatMap]
  constructor
  · rintro ⟨j, hj, hm⟩
    rcases List.mem_map.mp hm with ⟨c0, hc0, heq⟩
    have hji : j = i := congrArg Prod.fst heq
    have hcc : c0 = c := congrArg Prod.snd heq
    subst hji
    subst hcc
    rcases List.mem_filter.mp hj with ⟨hr, hcond⟩
    exact ⟨List.mem_range.mp hr, by simpa using hcond, hc0⟩
  · rintro ⟨h1, h2, h3⟩
    exact ⟨i, List.mem_filter.mpr ⟨List.mem_range.mpr h1, by simpa using h2⟩,
      List.mem_map.mpr ⟨c, h3, rfl⟩⟩

/-- Claim C3: when numeric_cols is non-empty and the numeric columns hold
float data, the checksum check flags a row exactly when the sum of its
numeric-column values is at most 0; every numeric column of each flagged
row becomes an ErrorLocation, a row with positive sum contributes none, and
the message reports only the count of failing rows. -/
theorem C3_checksum_check (df : DataFrame) (numeric : List String)
    (hne : ¬ (numeric = []))
    (hp : ∀ c ∈ numeric, df.hasCol c = true ∧
      ((df.getCol c).getD []).all (fun v => v.isFloat) = true) :
    check4 df numeric = .ok
      ((df.setCol "checksum"
          (((List.range df.nrows).map (fun i => rowTotal df numeric i)).map
            Value.vFloat)).dropCol "checksum",
       some (if ((List.range df.nrows).filter
              (fun i => rowTotal df numeric i ≤ 0)).isEmpty then
           (true, "All checksums valid")
         else
           (false, "Invalid checksums in " ++
             toString ((List.range df.nrows).filter
               (fun i => rowTotal df numeric i ≤ 0)).length ++ " rows")),
       ((List.range df.nrows).filter (fun i => rowTotal df numeric i ≤ 0)).flatMap
         (fun i => numeric.map (fun c => (i, c)))) ∧
    (∀ i c, ((i, c) ∈ ((List.range df.nrows).filter
        (fun i => rowTotal df numeric i ≤ 0)).flatMap
        (fun i => numeric.map (fun c => (i, c))) ↔
      (i < df.nrows ∧ rowTotal df numeric i ≤ 0 ∧ c ∈ numeric))) := by
  constructor
  · apply check4_spec df numeric hne
    intro c hc
    refine ⟨(hp c hc).1, ?_⟩
    have h2 := (hp c hc).2
    rw [List.all_eq_true] at h2 ⊢
    intro v hv
    rw [h2 v hv]
    rfl
  · intro i c
    exact mem_checksumLocs df numeric i c

/-- Claim C3 (witness): a two-row value column with sums -5 and 3 flags
exactly row 0, records (0, value), and reports the count 1. -/
theorem C3_witness :
    check4 dfTwoRows ["value"] =
      Except.ok (dfTwoRows, some (false, "Invalid checksums in 1 rows"), [(0, "value")]) := by
  rw [(C3_checksum_check dfTwoRows ["value"] (by decide) (by decide)).1]
  decide

/-- Claim C4 (counterexample): with two numeric columns a and b, the row
a = unparseable (post-coercion null), b = 5 has a null numeric cell yet the
Checksum Check passes, because pandas sums with skipna=True and the null is
skipped rather than propagated, leaving 5 > 0. -/
theorem C4_counterexample :
    validate_data dfNullPlusFive cfgTwoNum = Except.ok resNullPlusFive ∧
    (0, "a") ∈ resNullPlusFive.error_locations ∧
    resNullPlusFive.check_results.lookup "Checksum Check" =
      some (true, "All checksums valid") := by
  refine ⟨by decide, by decide, by decide⟩

/-- Claim C4 (amended): nulls are skipped, not propagated: a row with at
least one null numeric cell fails the checksum comparison exactly when the
sum of its remaining non-null numeric values is at most 0 — so with a
single numeric column a null row always fails (empty sum 0 ≤ 0), but with
several numeric columns the row can pass on the remaining values. -/
theorem C4_amended_skipna (df : DataFrame) (numeric : List String)
    (hne : ¬ (numeric = []))
    (hcells : ∀ c ∈ numeric, df.hasCol c = true ∧
      ((df.getCol c).getD []).all (fun v => v.isFloat || v.isNull) = true)
    (i : ℕ) (hi : i < df.nrows)
    (hnull : ∃ c ∈ numeric, (df.cell c i).isNull = true) :
    check4 df numeric = .ok
      ((df.setCol "checksum"
          (((List.range df.nrows).map (fun i => rowTotal df numeric i)).map
            Value.vFloat)).dropCol "checksum",
       some (if ((List.range df.nrows).filter
              (fun i => rowTotal df numeric i ≤ 0)).isEmpty then
           (true, "All checksums valid")
         else
           (false, "Invalid checksums in " ++
             toString ((List.range df.nrows).filter
               (fun i => rowTotal df numeric i ≤ 0)).length ++ " rows")),
       ((List.range df.nrows).filter (fun i => rowTotal df numeric i ≤ 0)).flatMap
         (fun i => numeric.map (fun c => (i, c)))) ∧
    (∀ c ∈ numeric, ((i, c) ∈ ((List.range df.nrows).filter
        (fun i => rowTotal df numeric i ≤ 0)).flatMap
        (fun i => numeric.map (fun c => (i, c))) ↔ rowTotal df numeric i ≤ 0)) := by
  constructor
  · exact check4_spec df numeric hne hcells
  · intro c hc
    rw [mem_checksumLocs df numeric i c]
    constructor
    · rintro ⟨_, h2, _⟩
      exact h2
    · intro h2
      exact ⟨hi, h2, hc⟩

/-- Claim C4 (witness): with a single numeric column, a null row is flagged
because the skipna sum over no values is 0 ≤ 0. -/
theorem C4_witness :
    check4 dfNullRow ["a"] =
      Except.ok (dfNullRow, some (false, "Invalid checksums in 1 rows"), [(0, "a")]) := by
  rw [(C4_amended_skipna dfNullRow ["a"] (by decide) (by decide) 0 (by decide)
    (by decide)).1]
  decide

theorem find?_of_mem_keys_nodup {cols : List (String × String)}
    (hk : (cols.map (fun p => p.1)).Nodup) {col tag : String}
    (hmem : (col, tag) ∈ cols) :
    cols.find? (fun p => p.1 = col) = some (col, tag) := by
  cases hf : cols.find? (fun p => p.1 = col) with
  | none =>
    have hx : ∃ x ∈ cols, (fun p : String × String => decide (p.1 = col)) x = true :=
      ⟨(col, tag), hmem, by simp⟩
    have hs := List.find?_isSome.mpr hx
    rw [hf] at hs
    cases hs
  | some q =>
    have hq := List.mem_of_find?_eq_some hf
    have hqc : q.1 = col := by simpa using List.find?_some hf
    have heq := nodup_keys_eq hk hq hmem hqc
    rw [heq]

theorem typeErrLocs_mem (df : DataFrame) (p : String × String) (i : ℕ) (c0 : String) :
    ((i, c0) ∈ typeErrLocs df p) ↔
      (p.1 = c0 ∧ ∃ vs, df.getCol p.1 = some vs ∧
        (p.2 = "datetime" ∨ p.2 = "float") ∧
        i ∈ nullIndices (vs.map (coerceTag p.2))) := by
  unfold typeErrLocs
  cases hf : df.getCol p.1 with
  | none =>
    constructor
    · intro hm
      cases hm
    · rintro ⟨_, vs, hvs, _⟩
      cases hvs
  | some vs =>
    show ((i, c0) ∈ (if p.2 = "datetime" ∨ p.2 = "float" then
        (nullIndices (vs.map (coerceTag p.2))).map (fun j => (j, p.1)) else [])) ↔ _
    by_cases hor : p.2 = "datetime" ∨ p.2 = "float"
    · rw [if_pos hor]
      constructor
      · intro hm
        rcases List.mem_map.mp hm with ⟨j, hj, hji⟩
        have hji1 : j = i := congrArg Prod.fst hji
        have hji2 : p.1 = c0 := congrArg Prod.snd hji
        subst hji1
        exact ⟨hji2, vs, rfl, hor, hj⟩
      · rintro ⟨hpc, vs2, hvs2, _, hjm⟩
        injection hvs2 with hvse
        rw [← hvse] at hjm
        exact List.mem_map.mpr ⟨i, hjm, by rw [hpc]⟩
    · rw [if_neg hor]
      constructor
      · intro hm
        cases hm
      · rintro ⟨_, vs2, _, hor2, _⟩
        exact absurd hor2 hor

theorem typeErrEntry_none_iff (df : DataFrame) (p : String × String) :
    typeErrEntry df p = none ↔
      (∀ vs, df.getCol p.1 = some vs → (p.2 = "datetime" ∨ p.2 = "float") →
        nullIndices (vs.map (coerceTag p.2)) = []) := by
  unfold typeErrEntry
  cases hf : df.getCol p.1 with
  | none =>
    constructor
    · intro _ vs hvs
      cases hvs
    · intro _
      rfl
  | some vs =>
    show ((if p.2 = "datetime" ∨ p.2 = "float" then
        (if (nullIndices (vs.map (coerceTag p.2))).isEmpty then none
         else some (p.1, nullIndices (vs.map (coerceTag p.2))))
      else none) = none) ↔ _
    by_cases hor : p.2 = "datetime" ∨ p.2 = "float"
    · rw [if_pos hor]
      by_cases hinv : (nullIndices (vs.map (coerceTag p.2))).isEmpty = true
      · rw [if_pos hinv]
        constructor
        · intro _ vs2 hvs2 _
          injection hvs2 with hvse
          rw [← hvse]
          exact List.isEmpty_iff.mp hinv
        · intro _
          rfl
      · rw [if_neg hinv]
        constructor
        · intro hct
          cases hct
        · intro hall
          exact absurd (by rw [hall vs rfl hor]; rfl) hinv
    · rw [if_neg hor]
      constructor
      · intro _ vs2 hvs2 hor2
        exact absurd hor2 hor
      · intro _
        rfl

theorem typeErrEntry_some_iff (df : DataFrame) (p : String × String)
    (col : String) (idxs : List ℕ) :
    typeErrEntry df p = some (col, idxs) ↔
      (p.1 = col ∧ ∃ vs, df.getCol p.1 = some vs ∧
        (p.2 = "datetime" ∨ p.2 = "float") ∧
        idxs = nullIndices (vs.map (coerceTag p.2)) ∧ ¬ (idxs = [])) := by
  unfold typeErrEntry
  cases hf : df.getCol p.1 with
  | none =>
    constructor
    · intro hct
      cases hct
    · rintro ⟨_, vs, hvs, _⟩
      cases hvs
  | some vs =>
    show ((if p.2 = "datetime" ∨ p.2 = "float" then
        (if (nullIndices (vs.map (coerceTag p.2))).isEmpty then none
         else some (p.1, nullIndices (vs.map (coerceTag p.2))))
      else none) = some (col, idxs)) ↔ _
    by_cases hor : p.2 = "datetime" ∨ p.2 = "float"
    · rw [if_pos hor]
      by_cases hinv : (nullIndices (vs.map (coerceTag p.2))).isEmpty = true
      · rw [if_pos hinv]
        constructor
        · intro hct
          cases hct
        · rintro ⟨_, vs2, hvs2, _, hidx, hnn⟩
          injection hvs2 with hvse
          rw [← hvse] at hidx
          rw [hidx, List.isEmpty_iff.mp hinv] at hnn
          exact absurd rfl hnn
      · rw [if_neg hinv]
        constructor
        · intro hct
          injection hct with hct2
          have hc1 : p.1 = col := congrArg Prod.fst hct2
          have hc2 : nullIndices (vs.map (coerceTag p.2)) = idxs :=
            congrArg Prod.snd hct2
          refine ⟨hc1, vs, rfl, hor, hc2.symm, ?_⟩
          intro hnil
          rw [hc2, hnil] at hinv
          exact hinv rfl
        · rintro ⟨hc1, vs2, hvs2, _, hidx, _⟩
          injection hvs2 with hvse
          rw [← hvse] at hidx
          rw [hc1, ← hidx]
    · rw [if_neg hor]
      constructor
      · intro hct
        cases hct
      · rintro ⟨_, vs2, _, hor2, _⟩
        exact absurd hor2 hor

theorem lookup_dataTypes (c1 c2 c3 : Bool × String) (c4 : Option (Bool × String)) :
    (assembleResults c1 c2 c3 c4).lookup "Data Types Check" = some c2 := by
  show List.lookup "Data Types Check"
    (("Columns Check", c1) :: ("Data Types Check", c2) :: ("Missing Values Check", c3) :: _) =
    some c2
  rw [List.lookup, List.lookup]
  rfl

/-- Claim C2: for every column present in both the table and the columns
mapping, a cell unparseable as the declared datetime or float type is
replaced by the null marker (never an exception), its (row, column) pair is
recorded, parseable cells in the column are coerced normally; str-tagged
coercion never produces a null; the Data Types check fails exactly when at
least one such column has at least one post-coercion null cell, its message
enumerates per offending column the offending row indices, and upon a
completed run the entry and locations land in the returned result. -/
theorem C2_data_types_check (df : DataFrame) (cfg : Config)
    (hn : df.names.Nodup) (hk : (cfg.columns.map (fun p => p.1)).Nodup)
    (df2 : DataFrame) (te : List (String × List ℕ)) (l2 : List (ℕ × String))
    (h2 : check2 df cfg.columns = (df2, te, l2)) :
    (∀ col tag vs, (col, tag) ∈ cfg.columns → df.getCol col = some vs →
      (tag = "datetime" ∨ tag = "float") →
      (df2.getCol col = some (vs.map (coerceTag tag)) ∧
        ∀ i, ((i, col) ∈ l2 ↔ i ∈ nullIndices (vs.map (coerceTag tag))))) ∧
    (∀ col vs, (col, "str") ∈ cfg.columns → df.getCol col = some vs →
      df2.getCol col = some (vs.map coerceStr)) ∧
    (∀ v, (coerceStr v).isNull = false) ∧
    ((¬ (te = [])) ↔ ∃ col tag vs, (col, tag) ∈ cfg.columns ∧
      df.getCol col = some vs ∧ (tag = "datetime" ∨ tag = "float") ∧
      ¬ (nullIndices (vs.map (coerceTag tag)) = [])) ∧
    (∀ col idxs, ((col, idxs) ∈ te ↔ ∃ tag vs, (col, tag) ∈ cfg.columns ∧
      df.getCol col = some vs ∧ (tag = "datetime" ∨ tag = "float") ∧
      idxs = nullIndices (vs.map (coerceTag tag)) ∧ ¬ (idxs = []))) ∧
    (∀ r, validate_data df cfg = .ok r →
      (r.check_results.lookup "Data Types Check" = some (dataTypesEntry te) ∧
        ∀ e ∈ l2, e ∈ r.error_locations)) := by
  have hte : te = cfg.columns.filterMap (typeErrEntry df) := by
    have h := check2_errs_spec cfg.columns df hk
    rw [h2] at h
    exact h
  have hl2 : l2 = cfg.columns.flatMap (typeErrLocs df) := by
    have h := check2_locs_spec cfg.columns df hk
    rw [h2] at h
    exact h
  refine ⟨?_, ?_, coerceStr_not_null, ?_, ?_, ?_⟩
  · intro col tag vs hmem hget hor
    have hfind := find?_of_mem_keys_nodup hk hmem
    constructor
    · have h := check2_getCol_spec cfg.columns df hk col
      rw [h2, hfind, hget] at h
      exact h
    · intro i
      rw [hl2, List.mem_flatMap]
      constructor
      · rintro ⟨p, hp, hpl⟩
        rcases (typeErrLocs_mem df p i col).mp hpl with ⟨hpc, vs2, hvs2, _, him⟩
        have hpeq : p = (col, tag) := nodup_keys_eq hk hp hmem hpc
        rw [hpeq] at hvs2 him
        rw [hget] at hvs2
        injection hvs2 with hvse
        rw [hvse]
        exact him
      · intro him
        refine ⟨(col, tag), hmem, (typeErrLocs_mem df (col, tag) i col).mpr
          ⟨rfl, vs, hget, hor, him⟩⟩
  · intro col vs hmem hget
    have hfind := find?_of_mem_keys_nodup hk hmem
    have h := check2_getCol_spec cfg.columns df hk col
    rw [h2, hfind, hget] at h
    have hmap : vs.map (coerceTag "str") = vs.map coerceStr :=
      List.map_congr_left (fun v _ => coerceTag_str v)
    rw [← hmap]
    exact h
  · rw [hte]
    constructor
    · intro hne
      have : ¬ (∀ p ∈ cfg.columns, typeErrEntry df p = none) := by
        intro hall
        exact hne (List.filterMap_eq_nil_iff.mpr hall)
      rcases not_forall.mp this with ⟨p, hp⟩
      rcases Classical.not_imp.mp hp with ⟨hpmem, hpne⟩
      have : ¬ (∀ vs, df.getCol p.1 = some vs → (p.2 = "datetime" ∨ p.2 = "float") →
          nullIndices (vs.map (coerceTag p.2)) = []) := by
        intro hall
        exact hpne ((typeErrEntry_none_iff df p).mpr hall)
      rcases not_forall.mp this with ⟨vs, hvs⟩
      rcases Classical.not_imp.mp hvs with ⟨hget, hrest⟩
      rcases Classical.not_imp.mp hrest with ⟨hor, hnn⟩
      exact ⟨p.1, p.2, vs, by rw [show ((p.1, p.2) : String × String) = p from rfl]; exact hpmem,
        hget, hor, hnn⟩
    · rintro ⟨col, tag, vs, hmem, hget, hor, hnn⟩ hnil
      have hnone := List.filterMap_eq_nil_iff.mp hnil (col, tag) hmem
      have := (typeErrEntry_none_iff df (col, tag)).mp hnone vs hget hor
      exact hnn this
  · intro col idxs
    rw [hte, List.mem_filterMap]
    constructor
    · rintro ⟨p, hp, hpe⟩
      rcases (typeErrEntry_some_iff df p col idxs).mp hpe with ⟨hpc, vs, hget, hor, hidx, hnn⟩
      refine ⟨p.2, vs, ?_, ?_, hor, hidx, hnn⟩
      · rw [← hpc]
        exact hp
      · rw [← hpc]
        exact hget
    · rintro ⟨tag, vs, hmem, hget, hor, hidx, hnn⟩
      exact ⟨(col, tag), hmem,
        (typeErrEntry_some_iff df (col, tag) col idxs).mpr ⟨rfl, vs, hget, hor, hidx, hnn⟩⟩
  · intro r hr
    rcases validate_ok_inv df cfg r hr with
      ⟨df2x, tex, l2x, mvx, l3x, df4x, c4x, l4x, h2x, h3x, h4x, hrx⟩
    have htup : (df2, te, l2) = (df2x, tex, l2x) := by
      rw [← h2, ← h2x]
    have htex : te = tex := congrArg (fun t => t.2.1) htup
    have hl2x : l2 = l2x := congrArg (fun t => t.2.2) htup
    constructor
    · rw [hrx]
      show (assembleResults (check1 df cfg) (dataTypesEntry tex)
        (missingValuesEntry mvx) c4x).lookup "Data Types Check" = some (dataTypesEntry te)
      rw [lookup_dataTypes, htex]
    · intro e he
      rw [hrx]
      show e ∈ l2x ++ l3x ++ l4x
      rw [← hl2x]
      exact List.mem_append_left _ (List.mem_append_left _ he)

/-- Claim C2 (witness): in scenario B the unparseable date cell is recorded
as (0, date) and the Data Types check fails. -/
theorem C2_witness :
    ((0, "date") ∈ (check2 dfScenB valuationsSheet.columns).2.2) ∧
    ¬ ((check2 dfScenB valuationsSheet.columns).2.1 = []) := by
  have h := C2_data_types_check dfScenB valuationsSheet (by decide) (by decide)
    (check2 dfScenB valuationsSheet.columns).1 (check2 dfScenB valuationsSheet.columns).2.1
    (check2 dfScenB valuationsSheet.columns).2.2 rfl
  constructor
  · exact ((h.1 "date" "datetime" [Value.vStr "bad-date"] (by decide) (by decide)
      (Or.inl rfl)).2 0).mpr (by decide)
  · exact h.2.2.2.1.mpr ⟨"date", "datetime", [Value.vStr "bad-date"], by decide, by decide,
      Or.inl rfl, by decide⟩

theorem sumRows_ok_rows : ∀ (idx : List ℕ) (cvs : List (List Value)) (sums : List ℚ),
    sumRows cvs idx = .ok sums →
    ∀ i ∈ idx, ∃ q, rowSumE (cvs.map (fun vs => vs.getD i Value.vNull)) = .ok q := by
  intro idx
  induction idx with
  | nil =>
    intro cvs sums _ i hi
    cases hi
  | cons j rest ih =>
    intro cvs sums h i hi
    cases hs : rowSumE (cvs.map (fun vs => vs.getD j Value.vNull)) with
    | error e =>
      simp only [sumRows, hs] at h
      exact Except.noConfusion h
    | ok q =>
      cases hr : sumRows cvs rest with
      | error e =>
        simp only [sumRows, hs, hr] at h
        exact Except.noConfusion h
      | ok qs =>
        cases List.mem_cons.mp hi with
        | inl hij =>
          rw [hij]
          exact ⟨q, hs⟩
        | inr hir => exact ih cvs qs hr i hir

theorem rowSumE_error_of_str : ∀ (cells : List Value) (s : String),
    Value.vStr s ∈ cells → ∃ e, rowSumE cells = .error e := by
  intro cells
  induction cells with
  | nil =>
    intro s hs
    cases hs
  | cons v r ih =>
    intro s hs
    cases List.mem_cons.mp hs with
    | inl hv =>
      rw [← hv]
      exact ⟨"TypeError: unsupported operand type(s)", rfl⟩
    | inr hr =>
      rcases ih s hr with ⟨e, he⟩
      cases v with
      | vStr s2 => exact ⟨"TypeError: unsupported operand type(s)", rfl⟩
      | vDate d => exact ⟨"TypeError: unsupported operand type(s)", rfl⟩
      | vNull =>
        refine ⟨e, ?_⟩
        simp only [rowSumE, he]
      | vFloat q =>
        refine ⟨e, ?_⟩
        simp only [rowSumE, he]

theorem getCols_ok_eq : ∀ (l : List String) (df : DataFrame) (cvs : List (List Value)),
    getCols df l = .ok cvs → cvs = l.map (fun c => (df.getCol c).getD []) := by
  intro l
  induction l with
  | nil =>
    intro df cvs h
    have h2 : (Except.ok ([] : List (List Value)) : Except String (List (List Value))) =
      .ok cvs := h
    injection h2 with h1
    rw [← h1]
    rfl
  | cons c rest ih =>
    intro df cvs h
    cases hf : df.getCol c with
    | none =>
      simp only [getCols, hf] at h
      exact Except.noConfusion h
    | some vs =>
      cases hr : getCols df rest with
      | error e =>
        simp only [getCols, hf, hr] at h
        exact Except.noConfusion h
      | ok vss =>
        simp only [getCols, hf, hr] at h
        injection h with h1
        rw [← h1, List.map_cons, hf, ih df vss hr]
        rfl

/-- Claim C10: the str coercion turns a null source cell into the non-null
literal string "nan", so the missing-value check never flags a null there:
for a str-tagged configured, required and present column of a well-formed
table, a completed run contains no ErrorLocation for that column and the
missing-value map has no entry for it. -/
theorem C10_str_nulls_become_nan (df : DataFrame) (cfg : Config) (r : ValidationResult)
    (hwf : df.WF) (hk : (cfg.columns.map (fun p => p.1)).Nodup)
    (h : validate_data df cfg = .ok r) (col : String)
    (hmem : (col, "str") ∈ cfg.columns) (hreq : col ∈ cfg.required_cols)
    (hpres : df.hasCol col = true) :
    coerceStr Value.vNull = Value.vStr "nan" ∧
    (∀ i, ¬ ((i, col) ∈ r.error_locations)) ∧
    (∀ df2 te l2 mv l3, check2 df cfg.columns = (df2, te, l2) →
      check3 df2 cfg.required_cols = .ok (mv, l3) →
      ∀ idxs, ¬ ((col, idxs) ∈ mv)) := by
  rcases validate_ok_inv df cfg r h with
    ⟨df2, te, l2, mv, l3, df4, c4, l4, h2, h3, h4, hr⟩
  rcases (df.hasCol_iff_getCol col).mp hpres with ⟨vs, hvs⟩
  have hfind := find?_of_mem_keys_nodup hk hmem
  have hget2 : df2.getCol col = some (vs.map coerceStr) := by
    have hspec := check2_getCol_spec cfg.columns df hk col
    rw [h2, hfind, hvs] at hspec
    have hmapeq : vs.map (coerceTag "str") = vs.map coerceStr :=
      List.map_congr_left (fun v _ => coerceTag_str v)
    rw [← hmapeq]
    exact hspec
  have hnonnull : nullIndices (vs.map coerceStr) = [] :=
    nullIndices_map_of_never_null coerceStr_not_null vs
  have hmv : ∀ idxs, ¬ ((col, idxs) ∈ mv) := by
    intro idxs him
    rcases check3_mv_mem cfg.required_cols df2 mv l3 h3 (col, idxs) him with ⟨vs2, hvs2, hnn⟩
    rw [hget2] at hvs2
    injection hvs2 with hvse
    rw [← hvse, hnonnull] at hnn
    exact hnn rfl
  refine ⟨rfl, ?_, ?_⟩
  · intro i hm
    rw [hr] at hm
    have hm2 : (i, col) ∈ l2 ++ l3 ++ l4 := hm
    rcases List.mem_append.mp hm2 with hm23 | hm4
    · rcases List.mem_append.mp hm23 with hml2 | hml3
      · have hl2 := check2_locs_spec cfg.columns df hk
        rw [h2] at hl2
        have hml2b : (i, col) ∈ cfg.columns.flatMap (typeErrLocs df) := by
          rw [show cfg.columns.flatMap (typeErrLocs df) = l2 from hl2.symm]
          exact hml2
        rcases List.mem_flatMap.mp hml2b with ⟨p, hp, hpl⟩
        rcases (typeErrLocs_mem df p i col).mp hpl with ⟨hpc, vs2, _, hor, _⟩
        have hpeq : p = (col, "str") := nodup_keys_eq hk hp hmem hpc
        rw [hpeq] at hor
        rcases hor with h5 | h5
        · exact absurd (show ("str" : String) = "datetime" from h5) (by decide)
        · exact absurd (show ("str" : String) = "float" from h5) (by decide)
      · rcases check3_locs_mem cfg.required_cols df2 mv l3 h3 i col hml3 with
          ⟨_, vs2, hvs2, him⟩
        rw [hget2] at hvs2
        injection hvs2 with hvse
        rw [← hvse, hnonnull] at him
        cases him
    · cases hnumnil : cfg.numeric_cols with
      | nil =>
        rw [hnumnil] at h4
        have h4e : (Except.ok (df2, none, ([] : List (ℕ × String))) :
            Except String (DataFrame × Option (Bool × String) × List (ℕ × String))) =
            .ok (df4, c4, l4) := h4
        injection h4e with h4i
        have hl4 : ([] : List (ℕ × String)) = l4 := congrArg (fun t => t.2.2) h4i
        rw [← hl4] at hm4
        cases hm4
      | cons n0 nrest =>
        have hne : ¬ (cfg.numeric_cols = []) := by
          rw [hnumnil]
          intro hx
          cases hx
        rcases check4_ok_inv df2 cfg.numeric_cols df4 c4 l4 hne h4 with
          ⟨cvs, sums, hget4, hsum4, _, _, hl4⟩
        rw [hl4] at hm4
        rcases List.mem_flatMap.mp hm4 with ⟨j, hj, hjm⟩
        rcases List.mem_map.mp hjm with ⟨c2, hc2, heq⟩
        have hcc : c2 = col := congrArg Prod.snd heq
        have hji : j = i := congrArg Prod.fst heq
        rw [hcc] at hc2
        have hjr : j ∈ List.range df2.nrows := (List.mem_filter.mp hj).1
        have hjn : j < df2.nrows := List.mem_range.mp hjr
        have hcvs := getCols_ok_eq cfg.numeric_cols df2 cvs hget4
        have hmemcvs : (vs.map coerceStr) ∈ cvs := by
          rw [hcvs]
          refine List.mem_map.mpr ⟨col, hc2, ?_⟩
          rw [hget2]
          rfl
        have hwf2 := check2_WF cfg.columns df hk hwf
        have hn2 : df2.WF ∧ df2.nrows = df.nrows := by
          rw [h2] at hwf2
          exact hwf2
        have hlen : vs.length = df2.nrows := by
          rw [hn2.2]
          exact hwf.2 (col, vs) (df.getCol_mem col vs hvs)
        have hjlt2 : j < vs.length := by
          rw [hlen]
          exact hjn
        have hcell : ((vs.map coerceStr).getD j Value.vNull) =
            coerceStr (vs.getD j Value.vNull) := by
          rw [List.getD_eq_getElem?_getD, List.getElem?_map,
            List.getD_eq_getElem?_getD, List.getElem?_eq_getElem hjlt2]
          rfl
        have hstr : Value.vStr (pyStr (vs.getD j Value.vNull)) ∈
            cvs.map (fun ws => ws.getD j Value.vNull) := by
          refine List.mem_map.mpr ⟨vs.map coerceStr, hmemcvs, ?_⟩
          rw [hcell]
          rfl
        rcases rowSumE_error_of_str _ _ hstr with ⟨e, he⟩
        rcases sumRows_ok_rows (List.range df2.nrows) cvs sums hsum4 j hjr with ⟨q, hq⟩
        rw [he] at hq
        exact Except.noConfusion hq
  · intro df2x tex l2x mvx l3x h2x h3x idxs
    have htup : (df2, te, l2) = (df2x, tex, l2x) := by rw [← h2, ← h2x]
    have hdf2x : df2 = df2x := congrArg Prod.fst htup
    rw [← hdf2x] at h3x
    have htup3 : ((mv, l3) : List (String × List ℕ) × List (ℕ × String)) = (mvx, l3x) := by
      have hth := h3.symm.trans h3x
      injection hth
    have hmvx : mv = mvx := congrArg Prod.fst htup3
    rw [← hmvx]
    exact hmv idxs

/-- Witness for C10 at a concrete table with a null cell in the str-tagged
`asset` column: the run completes, the cell becomes the string "nan", and
no ErrorLocation mentions the `asset` column. -/
theorem C10_witness :
    validate_data dfNullStr valuationsSheet = Except.ok resNullStr ∧
    coerceStr Value.vNull = Value.vStr "nan" ∧
    ¬ ((0, "asset") ∈ resNullStr.error_locations) := by
  have hrun : validate_data dfNullStr valuationsSheet = Except.ok resNullStr := by decide
  have hth := C10_str_nulls_become_nan dfNullStr valuationsSheet resNullStr
    (by decide) (by decide) hrun "asset" (by decide) (by decide) (by decide)
  exact ⟨hrun, hth.1, hth.2.1 0⟩

theorem missingCols_eq_nil (df : DataFrame) (cfg : Config)
    (h : ∀ c ∈ cfg.required_cols, df.hasCol c = true) :
    missingCols df cfg = [] := by
  unfold missingCols
  have hf : cfg.required_cols.filter (fun c => ¬ df.hasCol c) = [] := by
    apply List.filter_eq_nil_iff.mpr
    intro c hc
    simp [h c hc]
  rw [hf]
  exact List.dedup_nil

theorem check4_of_parts (df : DataFrame) (numeric : List String)
    (cvs : List (List Value)) (sums : List ℚ)
    (hne : numeric.isEmpty = false)
    (hg : getCols df numeric = .ok cvs)
    (hs : sumRows cvs (List.range df.nrows) = .ok sums)
    (hinv : (List.range df.nrows).filter (fun i => sums.getD i 0 ≤ 0) = []) :
    check4 df numeric = .ok
      ((df.setCol "checksum" (sums.map Value.vFloat)).dropCol "checksum",
       some (true, "All checksums valid"), []) := by
  simp only [check4, hne, Bool.false_eq_true, if_false, hg, hs, hinv]
  rfl

/-- Claim C7, counterexample: a zero-failure run is not idempotent.  The
one-column table whose data column is named `checksum` validates against a
config requiring that column with zero failure messages, yet the checksum
check's temporary column overwrote and then dropped it, so a second run on
the returned coerced table raises `KeyError: checksum`. -/
theorem C7_counterexample :
    validate_data dfChecksumCol cfgChecksumCol = Except.ok resChecksumCol ∧
    resChecksumCol.errors = [] ∧
    validate_data resChecksumCol.df cfgChecksumCol =
      Except.error "KeyError: checksum" :=
  ⟨by decide, by decide, by decide⟩

/-- Claim C7 (amended): the round-trip is idempotent only away from the
reserved column name `checksum`.  If the config has no numeric columns, or
none of its columns mapping, required columns and numeric columns mentions
"checksum", then a run of `validate_data` on a well-formed table that
returns zero failure messages is a fixed point: validating the returned
coerced table again succeeds, returning that table byte-for-byte unchanged,
the identical check results, no failure messages and no error locations. -/
theorem C7_amended_idempotent_away_from_checksum
    (df : DataFrame) (cfg : Config) (r : ValidationResult)
    (hwf : df.WF) (hk : (cfg.columns.map (fun p => p.1)).Nodup)
    (hck : cfg.numeric_cols = [] ∨
      ((¬ ("checksum" ∈ cfg.columns.map (fun p => p.1))) ∧
       (¬ ("checksum" ∈ cfg.required_cols)) ∧
       (¬ ("checksum" ∈ cfg.numeric_cols))))
    (h : validate_data df cfg = .ok r) (herr : r.errors = []) :
    validate_data r.df cfg = .ok ⟨r.df, r.check_results, [], []⟩ := by
  rcases validate_ok_inv df cfg r h with
    ⟨df2, te, l2, mv, l3, df4, c4, l4, h2, h3, h4, hr⟩
  have herrcr : failedMessages (assembleResults (check1 df cfg) (dataTypesEntry te)
      (missingValuesEntry mv) c4) = [] := by
    rw [hr] at herr
    exact herr
  have hall := (failedMessages_eq_nil_iff _).mp herrcr
  have h1t : (check1 df cfg).1 = true :=
    hall _ (mem_assembleResults_c1 (check1 df cfg) (dataTypesEntry te)
      (missingValuesEntry mv) c4)
  have h2t : (dataTypesEntry te).1 = true :=
    hall _ (mem_assembleResults_c2 (check1 df cfg) (dataTypesEntry te)
      (missingValuesEntry mv) c4)
  have h3t : (missingValuesEntry mv).1 = true :=
    hall _ (mem_assembleResults_c3 (check1 df cfg) (dataTypesEntry te)
      (missingValuesEntry mv) c4)
  have hte : te = [] := (dataTypesEntry_fst_true_iff te).mp h2t
  have hmv : mv = [] := (missingValuesEntry_fst_true_iff mv).mp h3t
  have hmc1 : missingCols df cfg = [] := (check1_fst_true_iff df cfg).mp h1t
  rw [hmv] at h3
  rcases check3_nil_inv cfg.required_cols df2 l3 h3 with ⟨hreqok, hl3⟩
  rw [hl3] at h3
  have hwf2p := check2_WF cfg.columns df hk hwf
  rw [h2] at hwf2p
  have hwf2 : df2.WF := hwf2p.1
  have hnr2 : df2.nrows = df.nrows := hwf2p.2
  have hn2 : df2.names.Nodup := hwf2.1
  have hteN : ∀ p ∈ cfg.columns, typeErrEntry df p = none := by
    have hes := check2_errs_spec cfg.columns df hk
    rw [h2] at hes
    have hes2 : cfg.columns.filterMap (typeErrEntry df) = [] := by
      rw [← hes]
      exact hte
    intro p hp
    exact List.filterMap_eq_nil_iff.mp hes2 p hp
  have hfix2 : ∀ p ∈ cfg.columns, ∀ vs, df2.getCol p.1 = some vs →
      vs.map (coerceTag p.2) = vs ∧
      ((p.2 = "datetime" ∨ p.2 = "float") → nullIndices vs = []) := by
    intro p hp vs hvs
    obtain ⟨pc, pt⟩ := p
    have hfind := find?_of_mem_keys_nodup hk hp
    have hspec := check2_getCol_spec cfg.columns df hk pc
    rw [h2, hfind] at hspec
    have hspec2 : df2.getCol pc = (df.getCol pc).map (fun ws => ws.map (coerceTag pt)) :=
      hspec
    rw [hvs] at hspec2
    cases hdf : df.getCol pc with
    | none =>
      rw [hdf] at hspec2
      cases hspec2
    | some ws =>
      rw [hdf] at hspec2
      injection hspec2 with hws
      constructor
      · rw [hws]
        exact map_coerceTag_idem pt ws
      · intro htag
        have hnone := hteN (pc, pt) hp
        have hnil := (typeErrEntry_none_iff df (pc, pt)).mp hnone ws hdf htag
        rw [hws]
        exact hnil
  have hrdf : r.df = df4 := by rw [hr]
  have hrcr : r.check_results = assembleResults (check1 df cfg) (dataTypesEntry te)
      (missingValuesEntry mv) c4 := by rw [hr]
  by_cases hnumnil : cfg.numeric_cols = []
  · rw [hnumnil] at h4
    have h4e : (Except.ok (df2, (none : Option (Bool × String)),
        ([] : List (ℕ × String))) :
        Except String (DataFrame × Option (Bool × String) × List (ℕ × String))) =
        .ok (df4, c4, l4) := h4
    injection h4e with h4i
    have hdf42 : df2 = df4 := congrArg (fun t => t.1) h4i
    have hc4n : (none : Option (Bool × String)) = c4 := congrArg (fun t => t.2.1) h4i
    have hc2' : check2 df2 cfg.columns = (df2, [], []) :=
      check2_fixed cfg.columns df2 hn2 hfix2
    have hc4' : check4 df2 cfg.numeric_cols = .ok (df2, none, []) :=
      check4_empty df2 cfg.numeric_cols hnumnil
    have hhas2 : ∀ c, df2.hasCol c = df.hasCol c := by
      intro c
      have hh := hasCol_check2 df cfg.columns c
      rw [h2] at hh
      exact hh
    have hmc2 : missingCols df2 cfg = [] := by
      rw [missingCols_congr df2 df cfg (fun c _ => hhas2 c)]
      exact hmc1
    have hck1 : check1 df2 cfg = check1 df cfg := by
      rw [check1_pass_eq df2 cfg hmc2, check1_pass_eq df cfg hmc1]
    have hbuild := validate_build df2 cfg df2 df2 [] [] [] [] [] none hc2' h3 hc4'
    rw [hte, hmv, ← hc4n] at herrcr
    have hfm0 : failedMessages (assembleResults (check1 df2 cfg) (dataTypesEntry [])
        (missingValuesEntry []) none) = [] := by
      rw [hck1]
      exact herrcr
    rw [hfm0] at hbuild
    rw [hrdf, hrcr, hte, hmv, ← hc4n, ← hdf42, ← hck1]
    exact hbuild
  · have hconj : (¬ ("checksum" ∈ cfg.columns.map (fun p => p.1))) ∧
        (¬ ("checksum" ∈ cfg.required_cols)) ∧
        (¬ ("checksum" ∈ cfg.numeric_cols)) := by
      rcases hck with hnum | hconj
      · exact absurd hnum hnumnil
      · exact hconj
    obtain ⟨hcc, hcrq, hcn⟩ := hconj
    rcases check4_ok_inv df2 cfg.numeric_cols df4 c4 l4 hnumnil h4 with
      ⟨cvs, sums, hget4, hsum4, hdf4, hc4, hl4⟩
    have hinv : (List.range df2.nrows).filter (fun i => sums.getD i 0 ≤ 0) = [] := by
      by_cases hP : ((List.range df2.nrows).filter
          (fun i => sums.getD i 0 ≤ 0)).isEmpty = true
      · exact List.isEmpty_iff.mp hP
      · rw [if_neg hP] at hc4
        have hmem : ("Checksum Check", ((false, "Invalid checksums in " ++
            toString ((List.range df2.nrows).filter
              (fun i => sums.getD i 0 ≤ 0)).length ++ " rows") : Bool × String)) ∈
            assembleResults (check1 df cfg) (dataTypesEntry te)
              (missingValuesEntry mv) c4 := by
          rw [hc4]
          exact mem_assembleResults_c4 _ _ _ _
        exact Bool.noConfusion (hall _ hmem)
    have hc4v : c4 = some ((true, "All checksums valid") : Bool × String) := by
      rw [hc4, if_pos (by rw [hinv]; rfl)]
    have hgetB : ∀ c, ¬ (c = "checksum") → df4.getCol c = df2.getCol c := by
      intro c hc
      rw [hdf4, DataFrame.getCol_dropCol_ne _ _ _ hc,
        DataFrame.getCol_setCol_ne _ _ _ _ hc]
    have hhasB : ∀ c, ¬ (c = "checksum") → df4.hasCol c = df2.hasCol c := by
      intro c hc
      unfold DataFrame.hasCol
      rw [hgetB c hc]
    have hn4 : df4.names.Nodup := by
      rw [hdf4]
      exact DataFrame.nodup_dropCol _ _ (DataFrame.nodup_setCol _ _ _ hn2)
    have hchk4 : df4.hasCol "checksum" = false := by
      rw [hdf4]
      exact DataFrame.hasCol_dropCol_self _ _
    have hsumlen : sums.length = df2.nrows := by
      have hsl := sumRows_length (List.range df2.nrows) cvs sums hsum4
      rw [List.length_range] at hsl
      exact hsl
    have hlen4 : ∀ p ∈ df4.cols, p.2.length = df2.nrows := by
      rw [hdf4]
      exact cols_len_dropCol _ _ _
        (cols_len_setCol df2 "checksum" (sums.map Value.vFloat) df2.nrows hwf2.2
          (by rw [List.length_map]; exact hsumlen))
    have hpres4 : ∀ c ∈ cfg.numeric_cols, df4.hasCol c = true := by
      intro c hc
      have hcne : ¬ (c = "checksum") := fun hx => hcn (hx ▸ hc)
      rw [hhasB c hcne]
      exact getCols_ok_present cfg.numeric_cols df2 cvs hget4 c hc
    have hne4nil : ¬ (df4.cols = []) := by
      cases hnn : cfg.numeric_cols with
      | nil => exact absurd hnn hnumnil
      | cons n0 rest =>
        exact df4.cols_ne_nil_of_hasCol n0
          (hpres4 n0 (by rw [hnn]; exact List.mem_cons_self _ _))
    have hnr4 : df4.nrows = df2.nrows := DataFrame.nrows_stable df4 df2.nrows hlen4 hne4nil
    have hfix4 : ∀ p ∈ cfg.columns, ∀ vs, df4.getCol p.1 = some vs →
        vs.map (coerceTag p.2) = vs ∧
        ((p.2 = "datetime" ∨ p.2 = "float") → nullIndices vs = []) := by
      intro p hp vs hvs
      have hpne : ¬ (p.1 = "checksum") := by
        intro hx
        exact hcc (hx ▸ List.mem_map_of_mem (fun q : String × String => q.1) hp)
      rw [hgetB p.1 hpne] at hvs
      exact hfix2 p hp vs hvs
    have hc2' : check2 df4 cfg.columns = (df4, [], []) :=
      check2_fixed cfg.columns df4 hn4 hfix4
    have hc3' : check3 df4 cfg.required_cols = .ok ([], []) := by
      apply check3_all_ok
      intro c hc
      have hcne : ¬ (c = "checksum") := fun hx => hcrq (hx ▸ hc)
      rcases hreqok c hc with ⟨vs, hv, hnv⟩
      exact ⟨vs, by rw [hgetB c hcne]; exact hv, hnv⟩
    have hget4' : getCols df4 cfg.numeric_cols = .ok cvs := by
      rw [getCols_congr cfg.numeric_cols df4 df2
        (fun c hc => hgetB c (fun hx => hcn (hx ▸ hc)))]
      exact hget4
    have hsum4' : sumRows cvs (List.range df4.nrows) = .ok sums := by
      rw [hnr4]
      exact hsum4
    have hinv4 : (List.range df4.nrows).filter (fun i => sums.getD i 0 ≤ 0) = [] := by
      rw [hnr4]
      exact hinv
    have hc4' : check4 df4 cfg.numeric_cols =
        .ok (df4, some (true, "All checksums valid"), []) := by
      have hb := check4_of_parts df4 cfg.numeric_cols cvs sums
        (by
          cases hnn : cfg.numeric_cols with
          | nil => exact absurd hnn hnumnil
          | cons a l => rfl) hget4' hsum4' hinv4
      rw [DataFrame.setCol_dropCol_absent df4 "checksum" (sums.map Value.vFloat) hchk4] at hb
      exact hb
    have hmc4 : missingCols df4 cfg = [] := by
      apply missingCols_eq_nil
      intro c hc
      have hcne : ¬ (c = "checksum") := fun hx => hcrq (hx ▸ hc)
      rw [hhasB c hcne]
      rcases hreqok c hc with ⟨vs, hv, _⟩
      exact (df2.hasCol_iff_getCol c).mpr ⟨vs, hv⟩
    have hck1 : check1 df4 cfg = check1 df cfg := by
      rw [check1_pass_eq df4 cfg hmc4, check1_pass_eq df cfg hmc1]
    have hbuild := validate_build df4 cfg df4 df4 [] [] [] [] []
      (some (true, "All checksums valid")) hc2' hc3' hc4'
    rw [hte, hmv, hc4v] at herrcr
    have hfm0 : failedMessages (assembleResults (check1 df4 cfg) (dataTypesEntry [])
        (missingValuesEntry []) (some (true, "All checksums valid"))) = [] := by
      rw [hck1]
      exact herrcr
    rw [hfm0] at hbuild
    rw [hrdf, hrcr, hte, hmv, hc4v, ← hck1]
    exact hbuild

/-- Witness for the amended C7: the scenario-A Valuations run passes with
zero failures and a second run on its coerced table is a fixed point. -/
theorem C7_witness :
    validate_data dfScenA valuationsSheet = Except.ok resScenA ∧
    resScenA.errors = [] ∧
    validate_data resScenA.df valuationsSheet =
      Except.ok ⟨resScenA.df, resScenA.check_results, [], []⟩ := by
  have hrun : validate_data dfScenA valuationsSheet = Except.ok resScenA := by decide
  refine ⟨hrun, by decide, ?_⟩
  exact C7_amended_idempotent_away_from_checksum dfScenA valuationsSheet resScenA
    (by decide) (by decide) (Or.inr (by decide)) hrun (by decide)
